import Mathlib

/-!
Shallow embedding of the libusb hotplug notification engine
(`libusb/hotplug.c`) together with proofs of the specified properties.

Modelling conventions:
* Pointers are modelled as natural numbers; the null pointer is `0`.
* Devices are identified by a `Nat` id; the per-device reference count and
  descriptor are total functions on ids carried in the context state.
* C `int` values are modelled as `Int` together with explicit 32-bit
  two's-complement wrapping (`wrap32`, `u32`) at the places where the source
  performs bit tests or may overflow.
* The `usb_devs_lock` (a recursive mutex) is modelled as an acquisition
  counter `lockCount`.
* A user callback is modelled by its observable interaction with the
  engine: given the device id, the event and the user-data word it yields a
  return value and the list of handles it passes to nested
  `libusb_hotplug_deregister_callback` calls made during the invocation.
* Each operation also yields a trace of lock, unlock and callback-invocation
  events, which makes synchrony and callback-invocation counts observable.
-/

namespace Hotplug

/-- The two hotplug events, `LIBUSB_HOTPLUG_EVENT_DEVICE_ARRIVED` and
`LIBUSB_HOTPLUG_EVENT_DEVICE_LEFT`. -/
inductive Event where
  | arrived
  | left
deriving DecidableEq, Repr

/-- The device descriptor fields consulted by `hotplug_cb_match`. -/
structure DeviceDesc where
  idVendor : Nat
  idProduct : Nat
  bDeviceClass : Nat
deriving DecidableEq, Repr

/-- One entry of a callback's pending-notification array
(`struct usbi_hotplug_notification`). -/
structure Notification where
  event : Event
  deviceId : Nat
deriving DecidableEq, Repr

/-- A registered hotplug callback record (`struct usbi_hotplug_callback`).
The C source packs the event mask, the three filter-valid bits and the
needs-free bit into a single `flags` byte; the bits are carried here as
separate fields. -/
structure HotplugCb where
  handle : Int
  evArrived : Bool
  evLeft : Bool
  vendorValid : Bool
  vendorId : Nat
  productValid : Bool
  productId : Nat
  classValid : Bool
  devClass : Nat
  needsFree : Bool
  cbId : Nat
  userData : Nat
  notifications : List Notification
deriving DecidableEq, Repr

/-- The per-context state touched by the hotplug engine
(`struct libusb_context`). -/
structure Ctx where
  hotplugCbs : List HotplugCb
  nextHotplugCbHandle : Int
  usbDevs : List Nat
  devDesc : Nat → DeviceDesc
  refCnt : Nat → Nat
  attachedDevs : Nat → Bool
  pendingEventFlag : Bool
  deregisteredEventFlag : Bool
  handlingHotplug : Bool
  cbFreedFlag : Bool
  handlingEvents : Bool
  lockCount : Nat

/-- Observable events: lock/unlock of `usb_devs_lock` and user-callback
invocations (handle of the invoked record, device id, event, user data). -/
inductive Ev where
  | lock
  | unlock
  | invoke (handle : Int) (deviceId : Nat) (event : Event) (userData : Nat)
deriving DecidableEq, Repr

/-- Unsigned 32-bit view of a C `int` value. -/
def u32 (v : Int) : Nat := (v % (2 ^ 32 : Int)).toNat

/-- 32-bit two's-complement wrap of an integer. -/
def wrap32 (v : Int) : Int := (v + 2 ^ 31) % 2 ^ 32 - 2 ^ 31

/-- `INT_MAX` for the 32-bit `int` used for callback handles. -/
def intMax : Int := 2 ^ 31 - 1

/-- `LIBUSB_HOTPLUG_MATCH_ANY`. -/
def matchAny : Int := -1

/-- Bit test of the record's event mask, `hotplug_cb->flags & event`. -/
def eventBit (cb : HotplugCb) : Event → Bool
  | .arrived => cb.evArrived
  | .left => cb.evLeft

/-- `hotplug_cb_match` (hotplug.c): decides whether an event on a device is
delivered to a record. -/
def hotplug_cb_match (cb : HotplugCb) (desc : DeviceDesc) (ev : Event) : Bool :=
  if !eventBit cb ev then false
  else if cb.vendorValid && cb.vendorId != desc.idVendor then false
  else if cb.productValid && cb.productId != desc.idProduct then false
  else if cb.classValid && cb.devClass != desc.bDeviceClass then false
  else true

/-- The argument sanity check of `libusb_hotplug_register_callback`
(hotplug.c lines 401-405).  On 32-bit `int`, `events & ~3` is non-zero iff
the unsigned view is at least 4, and likewise for the other masks. -/
def invalid_params (events flags vendorArg productArg classArg : Int)
    (callback : Nat) : Bool :=
  events == 0 || decide (4 ≤ u32 events) || decide (2 ≤ u32 flags) ||
  (vendorArg != matchAny && decide (0x10000 ≤ u32 vendorArg)) ||
  (productArg != matchAny && decide (0x10000 ≤ u32 productArg)) ||
  (classArg != matchAny && decide (0x100 ≤ u32 classArg)) ||
  callback == 0

/-- `libusb_ref_device`: increment a device's reference count. -/
def refDevice (refs : Nat → Nat) (d : Nat) : Nat → Nat :=
  fun x => if x = d then refs x + 1 else refs x

/-- `libusb_unref_device`: decrement a device's reference count. -/
def unrefDevice (refs : Nat → Nat) (d : Nat) : Nat → Nat :=
  fun x => if x = d then refs x - 1 else refs x

/-- Release the device reference of every notification in a queue (the loop
in `free_hotplug_cb`, and the unref loop in
`usbi_hotplug_process_notifications`). -/
def releaseNotifications (refs : Nat → Nat) : List Notification → (Nat → Nat)
  | [] => refs
  | n :: rest => releaseNotifications (unrefDevice refs n.deviceId) rest

/-- Number of queued notifications in `q` that reference device `d`. -/
def countIn (q : List Notification) (d : Nat) : Nat :=
  (q.filter (fun n => n.deviceId == d)).length

/-- Total number of notifications queued anywhere in the context that
reference device `d`. -/
def queuedCount (ctx : Ctx) (d : Nat) : Nat :=
  (ctx.hotplugCbs.map (fun cb => countIn cb.notifications d)).sum

/-- Number of occurrences of device `d` in the live device list. -/
def listCount (ctx : Ctx) (d : Nat) : Nat := ctx.usbDevs.count d

/-- `free_hotplug_cb` (hotplug.c): release the device reference of every
queued notification of the record at position `idx`, then unlink and free
the record. -/
def free_hotplug_cb (ctx : Ctx) (idx : Nat) : Ctx :=
  match ctx.hotplugCbs[idx]? with
  | none => ctx
  | some cb =>
      { ctx with
        refCnt := releaseNotifications ctx.refCnt cb.notifications
        hotplugCbs := ctx.hotplugCbs.eraseIdx idx }

/-- `usbi_hotplug_init` (hotplug.c). -/
def usbi_hotplug_init (hasHotplug : Bool) (ctx : Ctx) : Ctx :=
  if !hasHotplug then ctx
  else { ctx with hotplugCbs := [], nextHotplugCbHandle := 1 }

/-- The handle allocation step of `libusb_hotplug_register_callback`
(hotplug.c lines 444-450): post-increment `next_hotplug_cb_handle` with
32-bit wrap, resetting the counter to 1 if it overflowed into the negative
range.  Returns the allocated handle and the new counter. -/
def alloc_cb_handle (next : Int) : Int × Int :=
  let h := next
  let next1 := wrap32 (next + 1)
  let next2 := if next1 < 0 then 1 else next1
  (h, next2)

/-- `libusb_hotplug_deregister_callback` (hotplug.c).  `hasHotplug` models
`usbi_backend_has_hotplug()`. -/
def libusb_hotplug_deregister_callback (hasHotplug : Bool) (ctx : Ctx)
    (h : Int) : Ctx × List Ev :=
  if !hasHotplug then (ctx, [])
  else
    let ctx1 := { ctx with lockCount := ctx.lockCount + 1 }
    match ctx1.hotplugCbs.findIdx? (fun cb => cb.handle == h) with
    | none =>
        ({ ctx1 with lockCount := ctx1.lockCount - 1 }, [.lock, .unlock])
    | some idx =>
        let ctx2 :=
          if ctx1.handlingHotplug then
            match ctx1.hotplugCbs[idx]? with
            | none => ctx1
            | some cb =>
                { ctx1 with
                  cbFreedFlag := true
                  hotplugCbs := ctx1.hotplugCbs.set idx { cb with needsFree := true } }
          else free_hotplug_cb ctx1 idx
        let ctx3 := { ctx2 with lockCount := ctx2.lockCount - 1 }
        if !ctx3.handlingEvents then
          ({ ctx3 with deregisteredEventFlag := true }, [.lock, .unlock])
        else (ctx3, [.lock, .unlock])

/-- `libusb_hotplug_get_user_data` (hotplug.c).  The source acquires
`usb_devs_lock` before the lookup and then, at line 562, acquires it a
second time where the paired release would be expected; the embedding
reproduces that second acquisition. -/
def libusb_hotplug_get_user_data (hasHotplug : Bool) (ctx : Ctx)
    (h : Int) : Nat × Ctx × List Ev :=
  if !hasHotplug then (0, ctx, [])
  else
    let ctx1 := { ctx with lockCount := ctx.lockCount + 1 }
    let ud :=
      match ctx1.hotplugCbs.find? (fun cb => cb.handle == h) with
      | some cb => cb.userData
      | none => 0
    let ctx2 := { ctx1 with lockCount := ctx1.lockCount + 1 }
    (ud, ctx2, [.lock, .lock])

/-- The fan-out loop of `hotplug_notification` (hotplug.c): walk the
registered records, and for every record matching the event append one
notification (acquiring one device reference), skipping a record whose
notification-array reallocation fails.  `allocOk h` models whether the
`realloc` for the record with handle `h` succeeds.  Returns the updated
record list, the updated reference counts and the `notified` flag. -/
def notify_cbs (allocOk : Int → Bool) (desc : DeviceDesc) (d : Nat) (ev : Event)
    (refs : Nat → Nat) :
    List HotplugCb → List HotplugCb × (Nat → Nat) × Bool
  | [] => ([], refs, false)
  | cb :: rest =>
      if hotplug_cb_match cb desc ev then
        if allocOk cb.handle then
          let cb1 := { cb with notifications := cb.notifications ++ [⟨ev, d⟩] }
          let res := notify_cbs allocOk desc d ev (refDevice refs d) rest
          (cb1 :: res.1, res.2.1, true)
        else
          let res := notify_cbs allocOk desc d ev refs rest
          (cb :: res.1, res.2.1, res.2.2)
      else
        let res := notify_cbs allocOk desc d ev refs rest
        (cb :: res.1, res.2.1, res.2.2)

/-- `hotplug_notification` (hotplug.c): deliver one device transition to
every interested record; returns the updated context and the `notified`
flag. -/
def hotplug_notification (allocOk : Int → Bool) (ctx : Ctx) (d : Nat)
    (ev : Event) : Ctx × Bool :=
  let res := notify_cbs allocOk (ctx.devDesc d) d ev ctx.refCnt ctx.hotplugCbs
  ({ ctx with hotplugCbs := res.1, refCnt := res.2.1 }, res.2.2)

/-- `usbi_connect_device` (hotplug.c). -/
def usbi_connect_device (hasHotplug : Bool) (allocOk : Int → Bool)
    (ctx : Ctx) (d : Nat) : Ctx :=
  let ctx0 := { ctx with attachedDevs := fun x => if x = d then true else ctx.attachedDevs x }
  let ctx1 := { ctx0 with lockCount := ctx0.lockCount + 1 }
  let ctx2 := { ctx1 with usbDevs := d :: ctx1.usbDevs }
  let res :=
    if hasHotplug then hotplug_notification allocOk ctx2 d .arrived
    else (ctx2, false)
  let ctx3 := { res.1 with lockCount := res.1.lockCount - 1 }
  if res.2 then { ctx3 with pendingEventFlag := true } else ctx3

/-- `usbi_disconnect_device` (hotplug.c). -/
def usbi_disconnect_device (hasHotplug : Bool) (allocOk : Int → Bool)
    (ctx : Ctx) (d : Nat) : Ctx :=
  let ctx0 := { ctx with attachedDevs := fun x => if x = d then false else ctx.attachedDevs x }
  let ctx1 := { ctx0 with lockCount := ctx0.lockCount + 1 }
  let ctx2 := { ctx1 with usbDevs := ctx1.usbDevs.erase d }
  let res :=
    if hasHotplug then
      let r := hotplug_notification allocOk ctx2 d .left
      ({ r.1 with refCnt := unrefDevice r.1.refCnt d }, r.2)
    else (ctx2, false)
  let ctx3 := { res.1 with lockCount := res.1.lockCount - 1 }
  if res.2 then { ctx3 with pendingEventFlag := true } else ctx3

/-- `LIBUSB_ERROR_INVALID_PARAM`. -/
def errInvalidParam : Int := -2

/-- `LIBUSB_ERROR_NO_MEM`. -/
def errNoMem : Int := -11

/-- `LIBUSB_ERROR_NOT_SUPPORTED`. -/
def errNotSupported : Int := -12

/-- The observable behaviour of a user callback function: from the device
id, the event and the user-data word, the value it returns and the list of
handles it passes to nested `libusb_hotplug_deregister_callback` calls made
during the invocation. -/
def Behavior : Type := Nat → Event → Nat → Int × List Int

/-- An environment assigning a behaviour to every callback function
pointer. -/
def Env : Type := Nat → Behavior

/-- Perform the nested `libusb_hotplug_deregister_callback` calls made from
inside a user callback invocation, in order. -/
def applyDeregs (hasHotplug : Bool) (ctx : Ctx) :
    List Int → Ctx × List Ev
  | [] => (ctx, [])
  | h :: rest =>
      let r := libusb_hotplug_deregister_callback hasHotplug ctx h
      let r2 := applyDeregs hasHotplug r.1 rest
      (r2.1, r.2 ++ r2.2)

/-- The enumeration replay loop of `libusb_hotplug_register_callback`
(hotplug.c lines 454-462): walk the live device list and synchronously
invoke the callback, with its return value cast to void, for every device
matching the new record. -/
def enumerate_replay (hasHotplug : Bool) (env : Env) (cb : HotplugCb)
    (callback userData : Nat) (ctx : Ctx) :
    List Nat → Ctx × List Ev
  | [] => (ctx, [])
  | d :: rest =>
      if hotplug_cb_match cb (ctx.devDesc d) .arrived then
        let r := env callback d .arrived userData
        let r1 := applyDeregs hasHotplug ctx r.2
        let r2 := enumerate_replay hasHotplug env cb callback userData r1.1 rest
        (r2.1, Ev.invoke cb.handle d .arrived userData :: r1.2 ++ r2.2)
      else
        let r2 := enumerate_replay hasHotplug env cb callback userData ctx rest
        (r2.1, r2.2)

/-- The record constructed by `libusb_hotplug_register_callback`
(hotplug.c lines 417-433) before the handle is assigned. -/
def mk_hotplug_cb (events vendorArg productArg classArg : Int)
    (callback userData : Nat) : HotplugCb where
  handle := 0
  evArrived := (u32 events).testBit 0
  evLeft := (u32 events).testBit 1
  vendorValid := vendorArg != matchAny
  vendorId := u32 vendorArg % 2 ^ 16
  productValid := productArg != matchAny
  productId := u32 productArg % 2 ^ 16
  classValid := classArg != matchAny
  devClass := u32 classArg % 2 ^ 8
  needsFree := false
  cbId := callback
  userData := userData
  notifications := []

/-- `libusb_hotplug_register_callback` (hotplug.c).  `hasHotplug` models
`usbi_backend_has_hotplug()` and `allocOk` the success of the `malloc` of
the record.  Returns the result (the allocated handle on success), the new
context and the event trace. -/
def libusb_hotplug_register_callback (hasHotplug : Bool) (env : Env)
    (allocOk : Bool) (ctx : Ctx)
    (events flags vendorArg productArg classArg : Int)
    (callback userData : Nat) :
    Except Int Int × Ctx × List Ev :=
  if invalid_params events flags vendorArg productArg classArg callback then
    (.error errInvalidParam, ctx, [])
  else if !hasHotplug then (.error errNotSupported, ctx, [])
  else if !allocOk then (.error errNoMem, ctx, [])
  else
    let cb0 := mk_hotplug_cb events vendorArg productArg classArg callback userData
    let ctx1 := { ctx with lockCount := ctx.lockCount + 1 }
    let hn := alloc_cb_handle ctx1.nextHotplugCbHandle
    let ctx2 := { ctx1 with nextHotplugCbHandle := hn.2 }
    let cb1 := { cb0 with handle := hn.1 }
    let r :=
      if (u32 flags).testBit 0 && (u32 events).testBit 0 then
        enumerate_replay hasHotplug env cb1 callback userData ctx2 ctx2.usbDevs
      else (ctx2, [])
    let ctx3 := { r.1 with hotplugCbs := r.1.hotplugCbs ++ [cb1] }
    let ctx4 := { ctx3 with lockCount := ctx3.lockCount - 1 }
    (.ok hn.1, ctx4, Ev.lock :: r.2 ++ [Ev.unlock])

/-- The inner notification loop of `usbi_hotplug_process_notifications`
(hotplug.c lines 324-332) for the record at position `idx`, walking the
snapshot `q` of its notification array: stop when the record has been
flagged `USBI_HOTPLUG_NEEDS_FREE`, otherwise invoke the callback (applying
any nested deregistrations it performs) and continue while the return
value is zero.  Returns the context, the final value of `ret` and the
trace. -/
def run_queue (hasHotplug : Bool) (env : Env) (ctx : Ctx) (idx : Nat) :
    List Notification → Ctx × Int × List Ev
  | [] => (ctx, 0, [])
  | n :: rest =>
      match ctx.hotplugCbs[idx]? with
      | none => (ctx, 0, [])
      | some cb =>
          if cb.needsFree then (ctx, 0, [])
          else
            let r := env cb.cbId n.deviceId n.event cb.userData
            let r1 := applyDeregs hasHotplug ctx r.2
            let e := Ev.invoke cb.handle n.deviceId n.event cb.userData
            if r.1 ≠ 0 then (r1.1, r.1, e :: r1.2)
            else
              let r2 := run_queue hasHotplug env r1.1 idx rest
              (r2.1, r2.2.1, e :: r1.2 ++ r2.2.2)

/-- The per-record body of the first pass of
`usbi_hotplug_process_notifications` (hotplug.c lines 314-350): skip a
record whose notification array is null, otherwise walk its queue, then
either free the record (final return non-zero) or release the consumed
device references and reset the queue. -/
def process_one_hotplug_cb (hasHotplug : Bool) (env : Env) (ctx : Ctx)
    (idx : Nat) : Ctx × List Ev :=
  match ctx.hotplugCbs[idx]? with
  | none => (ctx, [])
  | some cb =>
      if cb.notifications = [] then (ctx, [])
      else
        let r := run_queue hasHotplug env ctx idx cb.notifications
        if r.2.1 ≠ 0 then (free_hotplug_cb r.1 idx, r.2.2)
        else
          match r.1.hotplugCbs[idx]? with
          | none => (r.1, r.2.2)
          | some cb1 =>
              ({ r.1 with
                 refCnt := releaseNotifications r.1.refCnt cb1.notifications
                 hotplugCbs := r.1.hotplugCbs.set idx { cb1 with notifications := [] } },
               r.2.2)

/-- The first pass of `usbi_hotplug_process_notifications`: visit `k`
remaining records in registry order.  The position of the next record to
visit is recovered as `length - k`, which accounts for the removal of the
just-visited record when its callback asked to be deregistered (the safe
iteration of the C source). -/
def process_pass (hasHotplug : Bool) (env : Env) (ctx : Ctx) :
    Nat → Ctx × List Ev
  | 0 => (ctx, [])
  | k + 1 =>
      let idx := ctx.hotplugCbs.length - (k + 1)
      let r := process_one_hotplug_cb hasHotplug env ctx idx
      let r2 := process_pass hasHotplug env r.1 k
      (r2.1, r.2 ++ r2.2)

/-- The second sweep of `usbi_hotplug_process_notifications` (hotplug.c
lines 352-357): free every record flagged `USBI_HOTPLUG_NEEDS_FREE`. -/
def sweep_free (ctx : Ctx) : Nat → Ctx
  | 0 => ctx
  | k + 1 =>
      let idx := ctx.hotplugCbs.length - (k + 1)
      match ctx.hotplugCbs[idx]? with
      | none => sweep_free ctx k
      | some cb =>
          if cb.needsFree then sweep_free (free_hotplug_cb ctx idx) k
          else sweep_free ctx k

/-- `usbi_hotplug_process_notifications` (hotplug.c): the dispatcher. -/
def usbi_hotplug_process_notifications (hasHotplug : Bool) (env : Env)
    (ctx : Ctx) : Ctx × List Ev :=
  let ctx0 := { ctx with handlingHotplug := true }
  let ctx1 := { ctx0 with lockCount := ctx0.lockCount + 1 }
  let r := process_pass hasHotplug env ctx1 ctx1.hotplugCbs.length
  let ctx2 := if r.1.cbFreedFlag then sweep_free r.1 r.1.hotplugCbs.length else r.1
  let ctx3 := { ctx2 with lockCount := ctx2.lockCount - 1 }
  ({ ctx3 with handlingHotplug := false }, Ev.lock :: r.2 ++ [Ev.unlock])

/-- Reference-release part of `usbi_hotplug_exit`: free every callback
record, releasing its queued notifications' device references. -/
def free_all_cbs (refs : Nat → Nat) : List HotplugCb → (Nat → Nat)
  | [] => refs
  | cb :: rest => free_all_cbs (releaseNotifications refs cb.notifications) rest

/-- Reference-release part of `usbi_hotplug_exit`: unreference every device
remaining in the live list. -/
def unref_all_devs (refs : Nat → Nat) : List Nat → (Nat → Nat)
  | [] => refs
  | d :: rest => unref_all_devs (unrefDevice refs d) rest

/-- `usbi_hotplug_exit` (hotplug.c): context teardown; free every callback
record and flush the live device list. -/
def usbi_hotplug_exit (hasHotplug : Bool) (ctx : Ctx) : Ctx :=
  if !hasHotplug then ctx
  else
    { ctx with
      refCnt := unref_all_devs (free_all_cbs ctx.refCnt ctx.hotplugCbs) ctx.usbDevs
      hotplugCbs := []
      usbDevs := [] }

/-- Is a trace event a user-callback invocation? -/
def isInvokeEv : Ev → Bool
  | .invoke _ _ _ _ => true
  | _ => false

/-- Specification-side description (following the amended wording of the
dispatcher claim) of the prefix of a record's notification queue that is
delivered to the user callback: walk the queue in FIFO order, stop before
an entry if the record has been marked for deferred destruction, include
an entry whose invocation returns non-zero and stop there, otherwise keep
walking (a nested self-deregistration, visible as a non-empty nested
deregistration list, marks the record). -/
def spec_delivered (b : Behavior) (ud : Nat) (marked : Bool) :
    List Notification → List Notification
  | [] => []
  | n :: rest =>
      if marked then []
      else
        let r := b n.deviceId n.event ud
        if r.1 ≠ 0 then [n]
        else n :: spec_delivered b ud (!r.2.isEmpty) rest

/-- Specification-side description: the return value of the last
invocation actually made (zero when no invocation was made). -/
def spec_last_ret (b : Behavior) (ud : Nat) (delivered : List Notification) : Int :=
  match delivered.getLast? with
  | none => 0
  | some n => (b n.deviceId n.event ud).1

/-- Specification-side description: whether the record carries the
deferred-destruction mark after the delivered prefix has been processed. -/
def spec_marked_after (b : Behavior) (ud : Nat) (marked : Bool)
    (delivered : List Notification) : Bool :=
  marked || delivered.any (fun n => !(b n.deviceId n.event ud).2.isEmpty)

/-- The reference-count invariant: every queued notification and every
occurrence in the live device list pins one reference of its device. -/
def RefInv (ctx : Ctx) : Prop :=
  ∀ d, queuedCount ctx d + listCount ctx d ≤ ctx.refCnt d

/-- A sample registered record used to instantiate theorems with
hypotheses at concrete inputs. -/
def sampleCb : HotplugCb where
  handle := 1
  evArrived := true
  evLeft := false
  vendorValid := false
  vendorId := 0
  productValid := false
  productId := 0
  classValid := false
  devClass := 0
  needsFree := false
  cbId := 7
  userData := 42
  notifications := [⟨.arrived, 10⟩, ⟨.arrived, 11⟩]

/-- A sample context with one registered record holding two pending
notifications and two live devices. -/
def sampleCtx : Ctx where
  hotplugCbs := [sampleCb]
  nextHotplugCbHandle := 2
  usbDevs := [10, 11]
  devDesc := fun _ => ⟨0x1234, 5, 9⟩
  refCnt := fun _ => 3
  attachedDevs := fun _ => true
  pendingEventFlag := false
  deregisteredEventFlag := false
  handlingHotplug := false
  cbFreedFlag := false
  handlingEvents := true
  lockCount := 0

/-- `sampleCtx` as the dispatcher sees it, with the notification-handling
guard raised. -/
def sampleCtxHandling : Ctx := { sampleCtx with handlingHotplug := true }

/-- A context with three live devices and no registered callbacks. -/
def sampleCtx3 : Ctx := { sampleCtx with hotplugCbs := [], usbDevs := [10, 11, 12] }

/-- A callback behaviour environment that always rearms and never makes
nested calls. -/
def envRearm : Env := fun _cb _d _ev _ud => (0, [])

/-- A callback behaviour environment that asks to be deregistered (returns
a non-zero value) on device 10 and rearms on every other device. -/
def envStop10 : Env := fun _cb d _ev _ud =>
  (if d == 10 then 1 else 0, [])

/-- A callback behaviour environment that always returns zero and, on
device 10, calls `libusb_hotplug_deregister_callback` on handle 1 from
within the invocation. -/
def envSelfDereg : Env := fun _cb d _ev _ud =>
  (0, if d == 10 then [(1 : Int)] else [])

/-! ## General list helper lemmas -/

theorem set_getElem_self {α : Type} {l : List α} {i : Nat} {a : α}
    (h : l[i]? = some a) : l.set i a = l := by
  induction l generalizing i with
  | nil => simp at h
  | cons x xs ih =>
      cases i with
      | zero => simp_all
      | succ j =>
          simp only [List.getElem?_cons_succ] at h
          simp [List.set_cons_succ, ih h]

theorem findIdx?_acc_eq {α : Type} (p : α → Bool) (l : List α) :
    ∀ (idx i : Nat) (a : α), l[idx]? = some a → p a = true →
    (∀ j, j < idx → ∀ b, l[j]? = some b → p b = false) →
    l.findIdx? p i = some (i + idx) := by
  induction l with
  | nil => intro idx i a h; simp at h
  | cons x xs ih =>
      intro idx i a h hp hbefore
      cases idx with
      | zero =>
          simp only [List.getElem?_cons_zero, Option.some_inj] at h
          subst h
          simp [List.findIdx?_cons, hp]
      | succ j =>
          have hx : p x = false :=
            hbefore 0 (Nat.succ_pos j) x (by simp)
          simp only [List.getElem?_cons_succ] at h
          rw [List.findIdx?_cons, hx]
          simp only [Bool.false_eq_true, if_false]
          have := ih j (i + 1) a h hp (fun k hk b hb =>
            hbefore (k + 1) (Nat.succ_lt_succ hk) b (by simpa using hb))
          rw [this]
          congr 1
          omega

theorem sum_map_eraseIdx {α : Type} (f : α → Nat) (l : List α) :
    ∀ (idx : Nat) (a : α), l[idx]? = some a →
    ((l.eraseIdx idx).map f).sum + f a = (l.map f).sum := by
  induction l with
  | nil => intro idx a h; simp at h
  | cons x xs ih =>
      intro idx a h
      cases idx with
      | zero =>
          simp only [List.getElem?_cons_zero, Option.some_inj] at h
          subst h
          simp [List.eraseIdx_cons_zero]
          omega
      | succ j =>
          simp only [List.getElem?_cons_succ] at h
          simp only [List.eraseIdx_cons_succ, List.map_cons, List.sum_cons]
          have := ih j a h
          omega

theorem sum_map_set {α : Type} (f : α → Nat) (l : List α) :
    ∀ (idx : Nat) (a b : α), l[idx]? = some a →
    ((l.set idx b).map f).sum + f a = (l.map f).sum + f b := by
  induction l with
  | nil => intro idx a b h; simp at h
  | cons x xs ih =>
      intro idx a b h
      cases idx with
      | zero =>
          simp only [List.getElem?_cons_zero, Option.some_inj] at h
          subst h
          simp [List.set_cons_zero]
          omega
      | succ j =>
          simp only [List.getElem?_cons_succ] at h
          simp only [List.set_cons_succ, List.map_cons, List.sum_cons]
          have := ih j a b h
          omega

/-! ## Reference-count bookkeeping lemmas -/

theorem countIn_cons (n : Notification) (q : List Notification) (d : Nat) :
    countIn (n :: q) d = (if n.deviceId = d then 1 else 0) + countIn q d := by
  unfold countIn
  rw [List.filter_cons]
  by_cases h : n.deviceId = d
  · simp [h]
    omega
  · simp [h]

theorem countIn_le_length (q : List Notification) (d : Nat) :
    countIn q d ≤ q.length :=
  List.length_filter_le _ q

theorem releaseNotifications_apply (q : List Notification) :
    ∀ (refs : Nat → Nat) (d : Nat),
    releaseNotifications refs q d = refs d - countIn q d := by
  induction q with
  | nil => intro refs d; simp [releaseNotifications, countIn]
  | cons n rest ih =>
      intro refs d
      rw [releaseNotifications, ih, countIn_cons]
      unfold unrefDevice
      by_cases h : d = n.deviceId
      · subst h; simp; omega
      · have h' : n.deviceId ≠ d := fun hc => h hc.symm
        simp [h, h']

/-! ## Arithmetic helper lemmas -/

theorem alloc_cb_handle_no_wrap (n : Int) (h1 : 1 ≤ n) (h2 : n < intMax) :
    alloc_cb_handle n = (n, n + 1) := by
  have hm : intMax = 2 ^ 31 - 1 := rfl
  unfold alloc_cb_handle wrap32
  have hlt : n + 1 + 2 ^ 31 < 2 ^ 32 := by omega
  have hge : (0 : Int) ≤ n + 1 + 2 ^ 31 := by omega
  rw [Int.emod_eq_of_lt hge hlt]
  have : ¬(n + 1 + 2 ^ 31 - 2 ^ 31 < 0) := by omega
  simp only [this, if_false]
  have harith : n + 1 + 2 ^ 31 - 2 ^ 31 = n + 1 := by omega
  rw [harith]

theorem invalid_params_iff (events flags vendorArg productArg classArg : Int)
    (callback : Nat)
    (hev : -(2 ^ 31) ≤ events ∧ events < 2 ^ 31)
    (hfl : -(2 ^ 31) ≤ flags ∧ flags < 2 ^ 31)
    (hv : -(2 ^ 31) ≤ vendorArg ∧ vendorArg < 2 ^ 31)
    (hp : -(2 ^ 31) ≤ productArg ∧ productArg < 2 ^ 31)
    (hc : -(2 ^ 31) ≤ classArg ∧ classArg < 2 ^ 31) :
    invalid_params events flags vendorArg productArg classArg callback = true ↔
      (¬(1 ≤ events ∧ events ≤ 3) ∨ ¬(0 ≤ flags ∧ flags ≤ 1) ∨
       (vendorArg ≠ matchAny ∧ ¬(0 ≤ vendorArg ∧ vendorArg ≤ 0xFFFF)) ∨
       (productArg ≠ matchAny ∧ ¬(0 ≤ productArg ∧ productArg ≤ 0xFFFF)) ∨
       (classArg ≠ matchAny ∧ ¬(0 ≤ classArg ∧ classArg ≤ 0xFF)) ∨
       callback = 0) := by
  unfold invalid_params matchAny
  simp only [Bool.or_eq_true, Bool.and_eq_true, bne_iff_ne, decide_eq_true_eq,
    beq_iff_eq, u32]
  omega

/-! ## Fan-out characterization lemmas -/

theorem notify_cbs_fst (allocOk : Int → Bool) (desc : DeviceDesc) (d : Nat)
    (ev : Event) :
    ∀ (refs : Nat → Nat) (l : List HotplugCb),
    (notify_cbs allocOk desc d ev refs l).1 =
      l.map (fun cb =>
        if hotplug_cb_match cb desc ev && allocOk cb.handle then
          { cb with notifications := cb.notifications ++ [⟨ev, d⟩] }
        else cb) := by
  intro refs l
  induction l generalizing refs with
  | nil => rfl
  | cons cb rest ih =>
      unfold notify_cbs
      by_cases hm : hotplug_cb_match cb desc ev = true
      · by_cases ha : allocOk cb.handle = true
        · simp [hm, ha, ih]
        · simp only [Bool.not_eq_true] at ha
          simp [hm, ha, ih]
      · simp only [Bool.not_eq_true] at hm
        simp [hm, ih]

theorem notify_cbs_notified (allocOk : Int → Bool) (desc : DeviceDesc) (d : Nat)
    (ev : Event) :
    ∀ (refs : Nat → Nat) (l : List HotplugCb),
    (notify_cbs allocOk desc d ev refs l).2.2 =
      l.any (fun cb => hotplug_cb_match cb desc ev && allocOk cb.handle) := by
  intro refs l
  induction l generalizing refs with
  | nil => rfl
  | cons cb rest ih =>
      unfold notify_cbs
      by_cases hm : hotplug_cb_match cb desc ev = true
      · by_cases ha : allocOk cb.handle = true
        · simp [hm, ha]
        · simp only [Bool.not_eq_true] at ha
          simp [hm, ha, ih]
      · simp only [Bool.not_eq_true] at hm
        simp [hm, ih]

theorem notify_cbs_refs (allocOk : Int → Bool) (desc : DeviceDesc) (d : Nat)
    (ev : Event) :
    ∀ (refs : Nat → Nat) (l : List HotplugCb) (x : Nat),
    (notify_cbs allocOk desc d ev refs l).2.1 x =
      if x = d then
        refs x + l.countP (fun cb => hotplug_cb_match cb desc ev && allocOk cb.handle)
      else refs x := by
  intro refs l
  induction l generalizing refs with
  | nil =>
      intro x
      by_cases hx : x = d <;> simp [notify_cbs, hx]
  | cons cb rest ih =>
      intro x
      unfold notify_cbs
      by_cases hm : hotplug_cb_match cb desc ev = true
      · by_cases ha : allocOk cb.handle = true
        · simp only [hm, ha, Bool.and_self, if_true]
          rw [ih]
          unfold refDevice
          by_cases hx : x = d
          · subst hx
            simp [List.countP_cons, hm, ha]
            omega
          · simp [hx]
        · simp only [Bool.not_eq_true] at ha
          simp only [hm, ha, Bool.and_false, Bool.false_eq_true, if_true, if_false]
          rw [ih]
          by_cases hx : x = d
          · subst hx
            simp [List.countP_cons, ha]
          · simp [hx]
      · simp only [Bool.not_eq_true] at hm
        simp only [hm, Bool.false_and, Bool.false_eq_true, if_false]
        rw [ih]
        by_cases hx : x = d
        · subst hx
          simp [List.countP_cons, hm]
        · simp [hx]

/-! ## Enumeration replay lemmas -/

theorem enumerate_replay_no_dereg (hp : Bool) (env : Env) (cb : HotplugCb)
    (callback userData : Nat) :
    ∀ (ctx : Ctx) (l : List Nat),
    (∀ d u, (env callback d .arrived u).2 = []) →
    enumerate_replay hp env cb callback userData ctx l =
      (ctx, (l.filter (fun d => hotplug_cb_match cb (ctx.devDesc d) .arrived)).map
        (fun d => Ev.invoke cb.handle d .arrived userData)) := by
  intro ctx l hnd
  induction l with
  | nil => rfl
  | cons d rest ih =>
      unfold enumerate_replay
      by_cases hm : hotplug_cb_match cb (ctx.devDesc d) .arrived = true
      · simp only [hm, if_true, hnd d userData, List.filter_cons, List.map_cons]
        rw [show applyDeregs hp ctx [] = (ctx, []) from rfl]
        simp [ih]
      · simp only [Bool.not_eq_true] at hm
        simp [hm, ih]

theorem register_enum_output (env : Env) (ctx : Ctx)
    (events flags vendorArg productArg classArg : Int) (callback userData : Nat)
    (hval : invalid_params events flags vendorArg productArg classArg callback
      = false)
    (henum : (u32 flags).testBit 0 = true)
    (harr : (u32 events).testBit 0 = true)
    (hnd : ∀ d u, (env callback d .arrived u).2 = []) :
    libusb_hotplug_register_callback true env true ctx events flags vendorArg
        productArg classArg callback userData =
      (.ok ctx.nextHotplugCbHandle,
       { ctx with
           nextHotplugCbHandle := (alloc_cb_handle ctx.nextHotplugCbHandle).2
           hotplugCbs := ctx.hotplugCbs ++
             [{ mk_hotplug_cb events vendorArg productArg classArg callback
                  userData with handle := ctx.nextHotplugCbHandle }] },
       Ev.lock :: ((ctx.usbDevs.filter (fun d =>
           hotplug_cb_match
             { mk_hotplug_cb events vendorArg productArg classArg callback
                 userData with handle := ctx.nextHotplugCbHandle }
             (ctx.devDesc d) .arrived)).map
         (fun d => Ev.invoke ctx.nextHotplugCbHandle d .arrived userData))
         ++ [Ev.unlock]) := by
  unfold libusb_hotplug_register_callback
  rw [hval, henum, harr]
  simp only [Bool.false_eq_true, if_false, Bool.not_true, Bool.and_self, if_true]
  rw [enumerate_replay_no_dereg]
  · rw [show (alloc_cb_handle ctx.nextHotplugCbHandle).1 = ctx.nextHotplugCbHandle
      from rfl]
    simp [Nat.add_sub_cancel]
  · exact hnd

/-! ## Dispatcher lemmas -/

theorem getElem?_lt {α : Type} {l : List α} {i : Nat} {a : α}
    (h : l[i]? = some a) : i < l.length := by
  by_contra hc
  rw [List.getElem?_eq_none (by omega)] at h
  simp at h

theorem spec_last_ret_cons (b : Behavior) (ud : Nat) (n : Notification)
    (l : List Notification) :
    spec_last_ret b ud (n :: l) =
      if l.isEmpty then (b n.deviceId n.event ud).1 else spec_last_ret b ud l := by
  unfold spec_last_ret
  cases l <;> simp [List.getLast?]

theorem spec_delivered_front (b : Behavior) (ud : Nat) :
    ∀ (q : List Notification) (marked : Bool),
    spec_delivered b ud marked q <+: q := by
  intro q
  induction q with
  | nil => intro marked; simp [spec_delivered]
  | cons n rest ih =>
      intro marked
      cases marked
      · by_cases hr : (b n.deviceId n.event ud).1 ≠ 0
        · simp only [spec_delivered, Bool.false_eq_true, if_false]
          rw [if_pos hr]
          exact ⟨rest, rfl⟩
        · simp only [spec_delivered, Bool.false_eq_true, if_false]
          rw [if_neg hr]
          exact (List.prefix_cons_inj n).mpr (ih _)
      · simp [spec_delivered]

/-- Effect of a nested `libusb_hotplug_deregister_callback` on the record
at position `idx` while notification handling is in progress: the record
is flagged `USBI_HOTPLUG_NEEDS_FREE` and the freed-flag is raised; queues,
reference counts, the device list and the lock depth are untouched. -/
theorem deregister_found_during_dispatch (ctx : Ctx) (idx : Nat)
    (cb : HotplugCb) (hidx : ctx.hotplugCbs[idx]? = some cb)
    (hbefore : ∀ j, j < idx → ∀ b, ctx.hotplugCbs[j]? = some b →
      (b.handle == cb.handle) = false)
    (hhh : ctx.handlingHotplug = true) :
    (libusb_hotplug_deregister_callback true ctx cb.handle).1.hotplugCbs =
      ctx.hotplugCbs.set idx { cb with needsFree := true } ∧
    (libusb_hotplug_deregister_callback true ctx cb.handle).1.refCnt =
      ctx.refCnt ∧
    (libusb_hotplug_deregister_callback true ctx cb.handle).1.usbDevs =
      ctx.usbDevs ∧
    (libusb_hotplug_deregister_callback true ctx cb.handle).1.handlingHotplug =
      ctx.handlingHotplug ∧
    (libusb_hotplug_deregister_callback true ctx cb.handle).1.lockCount =
      ctx.lockCount ∧
    (libusb_hotplug_deregister_callback true ctx cb.handle).1.devDesc =
      ctx.devDesc ∧
    (libusb_hotplug_deregister_callback true ctx cb.handle).2 =
      [Ev.lock, Ev.unlock] := by
  have hfind : ctx.hotplugCbs.findIdx? (fun x => x.handle == cb.handle)
      = some idx := by
    have := findIdx?_acc_eq (fun x : HotplugCb => x.handle == cb.handle)
      ctx.hotplugCbs idx 0 cb hidx (by simp) hbefore
    simpa using this
  unfold libusb_hotplug_deregister_callback
  simp only [Bool.not_true, Bool.false_eq_true, if_false, hfind, hidx, hhh,
    if_true]
  cases hev : ctx.handlingEvents <;> simp

theorem applyDeregs_nil (hp : Bool) (ctx : Ctx) :
    applyDeregs hp ctx [] = (ctx, []) := rfl

theorem applyDeregs_one (hp : Bool) (ctx : Ctx) (h : Int) :
    applyDeregs hp ctx [h] =
      ((libusb_hotplug_deregister_callback hp ctx h).1,
       (libusb_hotplug_deregister_callback hp ctx h).2) := by
  unfold applyDeregs applyDeregs
  simp

theorem spec_delivered_nil (b : Behavior) (ud : Nat) (marked : Bool) :
    spec_delivered b ud marked [] = [] := rfl

theorem spec_delivered_cons_marked (b : Behavior) (ud : Nat)
    (n : Notification) (rest : List Notification) :
    spec_delivered b ud true (n :: rest) = [] := by
  simp [spec_delivered]

theorem spec_delivered_marked (b : Behavior) (ud : Nat)
    (q : List Notification) : spec_delivered b ud true q = [] := by
  cases q
  · rfl
  · simp [spec_delivered]

theorem spec_delivered_cons_stop (b : Behavior) (ud : Nat) (n : Notification)
    (rest : List Notification) (hr : (b n.deviceId n.event ud).1 ≠ 0) :
    spec_delivered b ud false (n :: rest) = [n] := by
  unfold spec_delivered
  simp only [Bool.false_eq_true, if_false]
  rw [if_pos hr]

theorem spec_delivered_cons_go (b : Behavior) (ud : Nat) (n : Notification)
    (rest : List Notification) (hr : ¬(b n.deviceId n.event ud).1 ≠ 0) :
    spec_delivered b ud false (n :: rest) =
      n :: spec_delivered b ud (!(b n.deviceId n.event ud).2.isEmpty) rest := by
  conv_lhs => rw [spec_delivered]
  simp only [Bool.false_eq_true, if_false]
  rw [if_neg hr]

theorem spec_marked_after_nil (b : Behavior) (ud : Nat) (marked : Bool) :
    spec_marked_after b ud marked [] = marked := by
  simp [spec_marked_after]

theorem spec_marked_after_cons (b : Behavior) (ud : Nat) (marked : Bool)
    (n : Notification) (l : List Notification) :
    spec_marked_after b ud marked (n :: l) =
      (marked || !(b n.deviceId n.event ud).2.isEmpty ||
        spec_marked_after b ud false l) := by
  unfold spec_marked_after
  cases marked <;> simp [List.any_cons, Bool.or_assoc]

theorem run_queue_nil (hp : Bool) (env : Env) (ctx : Ctx) (idx : Nat) :
    run_queue hp env ctx idx [] = (ctx, 0, []) := rfl

theorem run_queue_cons_none (hp : Bool) (env : Env) (ctx : Ctx) (idx : Nat)
    (n : Notification) (rest : List Notification)
    (hidx : ctx.hotplugCbs[idx]? = none) :
    run_queue hp env ctx idx (n :: rest) = (ctx, 0, []) := by
  simp [run_queue, hidx]

theorem run_queue_cons_marked (hp : Bool) (env : Env) (ctx : Ctx) (idx : Nat)
    (cb : HotplugCb) (n : Notification) (rest : List Notification)
    (hidx : ctx.hotplugCbs[idx]? = some cb) (hm : cb.needsFree = true) :
    run_queue hp env ctx idx (n :: rest) = (ctx, 0, []) := by
  simp [run_queue, hidx, hm]

theorem run_queue_cons_step (hp : Bool) (env : Env) (ctx : Ctx) (idx : Nat)
    (cb : HotplugCb) (n : Notification) (rest : List Notification)
    (hidx : ctx.hotplugCbs[idx]? = some cb) (hm : cb.needsFree = false) :
    run_queue hp env ctx idx (n :: rest) =
      if (env cb.cbId n.deviceId n.event cb.userData).1 ≠ 0 then
        ((applyDeregs hp ctx (env cb.cbId n.deviceId n.event cb.userData).2).1,
         (env cb.cbId n.deviceId n.event cb.userData).1,
         Ev.invoke cb.handle n.deviceId n.event cb.userData ::
           (applyDeregs hp ctx (env cb.cbId n.deviceId n.event cb.userData).2).2)
      else
        ((run_queue hp env
            (applyDeregs hp ctx
              (env cb.cbId n.deviceId n.event cb.userData).2).1 idx rest).1,
         (run_queue hp env
            (applyDeregs hp ctx
              (env cb.cbId n.deviceId n.event cb.userData).2).1 idx rest).2.1,
         Ev.invoke cb.handle n.deviceId n.event cb.userData ::
           (applyDeregs hp ctx (env cb.cbId n.deviceId n.event cb.userData).2).2
           ++ (run_queue hp env
                (applyDeregs hp ctx
                  (env cb.cbId n.deviceId n.event cb.userData).2).1 idx
                rest).2.2) := by
  rw [show run_queue hp env ctx idx (n :: rest) =
    (match ctx.hotplugCbs[idx]? with
     | none => (ctx, 0, [])
     | some cb =>
        if cb.needsFree then (ctx, 0, [])
        else
          let r := env cb.cbId n.deviceId n.event cb.userData
          let r1 := applyDeregs hp ctx r.2
          let e := Ev.invoke cb.handle n.deviceId n.event cb.userData
          if r.1 ≠ 0 then (r1.1, r.1, e :: r1.2)
          else
            let r2 := run_queue hp env r1.1 idx rest
            (r2.1, r2.2.1, e :: r1.2 ++ r2.2.2)) from rfl]
  rw [hidx]
  simp only [hm, Bool.false_eq_true, if_false]

/-- Characterization of the dispatcher's inner notification loop for a
record whose callback performs at most self-deregistrations: the loop
delivers exactly the spec-side prefix `spec_delivered`, returns the
spec-side last return value, marks the record according to
`spec_marked_after`, and leaves reference counts, the device list, the
lock depth and the rest of the registry untouched. -/
theorem run_queue_spec (env : Env) (idx : Nat) :
    ∀ (q : List Notification) (ctx : Ctx) (cb : HotplugCb),
    ctx.hotplugCbs[idx]? = some cb →
    ctx.handlingHotplug = true →
    (∀ j, j < idx → ∀ b, ctx.hotplugCbs[j]? = some b →
      (b.handle == cb.handle) = false) →
    (∀ d e u, (env cb.cbId d e u).2 = [] ∨ (env cb.cbId d e u).2 = [cb.handle]) →
    (run_queue true env ctx idx q).2.1 =
        spec_last_ret (env cb.cbId) cb.userData
          (spec_delivered (env cb.cbId) cb.userData cb.needsFree q) ∧
    (run_queue true env ctx idx q).2.2.filter isInvokeEv =
        (spec_delivered (env cb.cbId) cb.userData cb.needsFree q).map
          (fun n => Ev.invoke cb.handle n.deviceId n.event cb.userData) ∧
    (run_queue true env ctx idx q).1.hotplugCbs =
        ctx.hotplugCbs.set idx
          { cb with
              needsFree :=
                spec_marked_after (env cb.cbId) cb.userData cb.needsFree
                  (spec_delivered (env cb.cbId) cb.userData cb.needsFree q) } ∧
    (run_queue true env ctx idx q).1.refCnt = ctx.refCnt ∧
    (run_queue true env ctx idx q).1.usbDevs = ctx.usbDevs ∧
    (run_queue true env ctx idx q).1.handlingHotplug = ctx.handlingHotplug ∧
    (run_queue true env ctx idx q).1.lockCount = ctx.lockCount ∧
    (run_queue true env ctx idx q).1.devDesc = ctx.devDesc := by
  intro q
  induction q with
  | nil =>
      intro ctx cb hidx hhh hbefore hself
      rw [run_queue_nil]
      refine ⟨rfl, rfl, ?_, rfl, rfl, rfl, rfl, rfl⟩
      rw [spec_delivered_nil, spec_marked_after_nil]
      rw [show ({ cb with needsFree := cb.needsFree } : HotplugCb) = cb from rfl]
      rw [set_getElem_self hidx]
  | cons n rest ih =>
      intro ctx cb hidx hhh hbefore hself
      have hlt : idx < ctx.hotplugCbs.length := getElem?_lt hidx
      cases hm : cb.needsFree with
      | true =>
          rw [run_queue_cons_marked true env ctx idx cb n rest hidx hm,
            spec_delivered_cons_marked]
          refine ⟨rfl, rfl, ?_, rfl, rfl, rfl, rfl, rfl⟩
          rw [spec_marked_after_nil]
          rw [show ({ cb with needsFree := true } : HotplugCb)
            = { cb with needsFree := cb.needsFree } from by rw [hm]]
          rw [show ({ cb with needsFree := cb.needsFree } : HotplugCb) = cb
            from rfl]
          rw [set_getElem_self hidx]
      | false =>
          rw [run_queue_cons_step true env ctx idx cb n rest hidx hm]
          rcases hself n.deviceId n.event cb.userData with hd | hd
          · rw [hd, applyDeregs_nil]
            by_cases hr : (env cb.cbId n.deviceId n.event cb.userData).1 ≠ 0
            · rw [if_pos hr, spec_delivered_cons_stop _ _ _ _ hr]
              refine ⟨?_, ?_, ?_, rfl, rfl, rfl, rfl, rfl⟩
              · simp [spec_last_ret]
              · simp [isInvokeEv]
              · rw [spec_marked_after_cons, spec_marked_after_nil, hd]
                simp only [List.isEmpty_nil, Bool.not_true, Bool.or_false,
                  Bool.false_or]
                rw [show ({ cb with needsFree := false } : HotplugCb)
                  = { cb with needsFree := cb.needsFree } from by rw [hm]]
                rw [show ({ cb with needsFree := cb.needsFree } : HotplugCb) = cb
                  from rfl]
                rw [set_getElem_self hidx]
            · rw [if_neg hr, spec_delivered_cons_go _ _ _ _ hr, hd]
              simp only [List.isEmpty_nil, Bool.not_true]
              obtain ⟨ih1, ih2, ih3, ih4, ih5, ih6, ih7, ih8⟩ :=
                ih ctx cb hidx hhh hbefore hself
              rw [hm] at ih1 ih2 ih3
              push_neg at hr
              refine ⟨?_, ?_, ?_, ih4, ih5, ih6, ih7, ih8⟩
              · rw [spec_last_ret_cons, ih1]
                by_cases hD : (spec_delivered (env cb.cbId) cb.userData false
                    rest).isEmpty = true
                · rw [if_pos hD]
                  rw [List.isEmpty_iff] at hD
                  rw [hD, hr]
                  rfl
                · rw [if_neg (by simpa using hD)]
              · simp [isInvokeEv, ih2]
              · rw [ih3, spec_marked_after_cons, hd]
                simp only [List.isEmpty_nil, Bool.not_true, Bool.or_false,
                  Bool.false_or]
          · have hD := deregister_found_during_dispatch ctx idx cb hidx hbefore
              hhh
            obtain ⟨hd1, hd2, hd3, hd4, hd5, hd6, hd7⟩ := hD
            rw [hd, applyDeregs_one]
            by_cases hr : (env cb.cbId n.deviceId n.event cb.userData).1 ≠ 0
            · rw [if_pos hr, spec_delivered_cons_stop _ _ _ _ hr]
              refine ⟨?_, ?_, ?_, hd2, hd3, hd4, hd5, hd6⟩
              · simp [spec_last_ret]
              · rw [hd7]
                simp [isInvokeEv]
              · rw [hd1, spec_marked_after_cons, spec_marked_after_nil, hd]
                simp
            · rw [if_neg hr, spec_delivered_cons_go _ _ _ _ hr, hd]
              simp only [List.isEmpty_cons, Bool.not_false]
              set ctx' := (libusb_hotplug_deregister_callback true ctx
                cb.handle).1 with hctx'
              have hidx' : ctx'.hotplugCbs[idx]? =
                  some { cb with needsFree := true } := by
                rw [hctx', hd1]
                exact List.getElem?_set_self hlt
              have hhh' : ctx'.handlingHotplug = true := by
                rw [hctx', hd4, hhh]
              have hbefore' : ∀ j, j < idx → ∀ b, ctx'.hotplugCbs[j]? = some b →
                  (b.handle == ({ cb with needsFree := true } : HotplugCb).handle)
                    = false := by
                intro j hj b hb
                rw [hctx', hd1, List.getElem?_set_ne (by omega)] at hb
                exact hbefore j hj b hb
              have hself' : ∀ d e u,
                  (env ({ cb with needsFree := true } : HotplugCb).cbId d e u).2
                      = [] ∨
                    (env ({ cb with needsFree := true } : HotplugCb).cbId d e u).2
                      = [({ cb with needsFree := true } : HotplugCb).handle] :=
                hself
              obtain ⟨ih1, ih2, ih3, ih4, ih5, ih6, ih7, ih8⟩ :=
                ih ctx' { cb with needsFree := true } hidx' hhh' hbefore' hself'
              dsimp only at ih1 ih2 ih3
              push_neg at hr
              refine ⟨?_, ?_, ?_, ?_, ?_, ?_, ?_, ?_⟩
              · rw [ih1, spec_delivered_marked]
                simp [spec_last_ret, List.getLast?, hr]
              · simp [isInvokeEv, hd7, ih2, spec_delivered_marked]
              · rw [ih3, hctx', hd1, List.set_set, spec_delivered_marked,
                  spec_marked_after_nil, spec_marked_after_cons, hd]
                simp
              · rw [ih4, hctx', hd2]
              · rw [ih5, hctx', hd3]
              · rw [ih6, hctx', hd4]
              · rw [ih7, hctx', hd5]
              · rw [ih8, hctx', hd6]

theorem eraseIdx_set {α : Type} (l : List α) :
    ∀ (idx : Nat) (a : α), (l.set idx a).eraseIdx idx = l.eraseIdx idx := by
  induction l with
  | nil => intro idx a; simp
  | cons x xs ih =>
      intro idx a
      cases idx
      · simp
      · simp [ih]

/-! ## Reference-count accounting lemmas -/

theorem countIn_append (q1 q2 : List Notification) (d : Nat) :
    countIn (q1 ++ q2) d = countIn q1 d + countIn q2 d := by
  unfold countIn
  rw [List.filter_append, List.length_append]

theorem countIn_singleton (ev : Event) (x d : Nat) :
    countIn [⟨ev, x⟩] d = if d = x then 1 else 0 := by
  unfold countIn
  by_cases h : x = d
  · subst h
    simp
  · have h' : d ≠ x := fun hc => h hc.symm
    simp [h, h']

theorem free_all_cbs_apply (l : List HotplugCb) :
    ∀ (refs : Nat → Nat) (d : Nat),
    free_all_cbs refs l d =
      refs d - (l.map (fun cb => countIn cb.notifications d)).sum := by
  induction l with
  | nil => intro refs d; simp [free_all_cbs]
  | cons cb rest ih =>
      intro refs d
      rw [free_all_cbs, ih, releaseNotifications_apply]
      simp only [List.map_cons, List.sum_cons]
      omega

theorem unref_all_devs_apply (devs : List Nat) :
    ∀ (refs : Nat → Nat) (d : Nat),
    unref_all_devs refs devs d = refs d - devs.count d := by
  induction devs with
  | nil => intro refs d; simp [unref_all_devs]
  | cons x rest ih =>
      intro refs d
      rw [unref_all_devs, ih, List.count_cons]
      unfold unrefDevice
      by_cases h : d = x
      · subst h
        simp
        omega
      · have h'' : ¬x = d := fun hc => h hc.symm
        have h' : ¬(x == d) = true := by simp [h'']
        simp [h, h']

theorem queued_after_notify (desc : DeviceDesc) (d : Nat) (ev : Event)
    (allocOk : Int → Bool) :
    ∀ (l : List HotplugCb) (x : Nat),
    ((l.map (fun cb =>
        if hotplug_cb_match cb desc ev && allocOk cb.handle then
          { cb with notifications := cb.notifications ++ [⟨ev, d⟩] }
        else cb)).map (fun cb => countIn cb.notifications x)).sum =
      (l.map (fun cb => countIn cb.notifications x)).sum +
        (if x = d then
          l.countP (fun cb => hotplug_cb_match cb desc ev && allocOk cb.handle)
        else 0) := by
  intro l
  induction l with
  | nil =>
      intro x
      by_cases hx : x = d <;> simp [hx]
  | cons cb rest ih =>
      intro x
      simp only [List.map_cons, List.sum_cons, List.countP_cons]
      by_cases hp : (hotplug_cb_match cb desc ev && allocOk cb.handle) = true
      · simp only [hp, if_true]
        rw [ih]
        simp only [countIn_append, countIn_singleton]
        by_cases hx : x = d
        · simp [hx]
          omega
        · simp [hx]
      · simp only [Bool.not_eq_true] at hp
        simp only [hp, Bool.false_eq_true, if_false]
        rw [ih]
        by_cases hx : x = d <;> simp [hx]
        omega

theorem map_set_eq {α β : Type} (f : α → β) (l : List α) :
    ∀ (idx : Nat) (a b : α), l[idx]? = some b → f a = f b →
    (l.set idx a).map f = l.map f := by
  induction l with
  | nil => intro idx a b hb; simp at hb
  | cons x xs ih =>
      intro idx a b hb hf
      cases idx with
      | zero =>
          simp only [List.getElem?_cons_zero, Option.some_inj] at hb
          subst hb
          simp [hf]
      | succ j =>
          simp only [List.getElem?_cons_succ] at hb
          simp [ih j a b hb hf]

theorem queuedCount_eq_of_map_eq (c1 c2 : Ctx)
    (h : c1.hotplugCbs.map (fun cb => cb.notifications) =
      c2.hotplugCbs.map (fun cb => cb.notifications)) :
    ∀ d, queuedCount c1 d = queuedCount c2 d := by
  intro d
  unfold queuedCount
  rw [show c1.hotplugCbs.map (fun cb => countIn cb.notifications d)
      = (c1.hotplugCbs.map (fun cb => cb.notifications)).map
          (fun q => countIn q d) from by rw [List.map_map]; rfl]
  rw [h, List.map_map]
  rfl

/-- While notification handling is in progress, any nested deregistration
only flags a record: reference counts, the device list, the
handling-in-progress guard and every record's notification queue are
unchanged. -/
theorem deregister_dispatch_preserves (hp : Bool) (ctx : Ctx) (h : Int)
    (hhh : ctx.handlingHotplug = true) :
    (libusb_hotplug_deregister_callback hp ctx h).1.refCnt = ctx.refCnt ∧
    (libusb_hotplug_deregister_callback hp ctx h).1.usbDevs = ctx.usbDevs ∧
    (libusb_hotplug_deregister_callback hp ctx h).1.handlingHotplug = true ∧
    (libusb_hotplug_deregister_callback hp ctx h).1.hotplugCbs.map
        (fun cb => cb.notifications) =
      ctx.hotplugCbs.map (fun cb => cb.notifications) := by
  cases hp
  · exact ⟨rfl, rfl, hhh, rfl⟩
  · unfold libusb_hotplug_deregister_callback
    simp only [Bool.not_true, Bool.false_eq_true, if_false]
    cases hfind : ctx.hotplugCbs.findIdx? (fun cb => cb.handle == h) with
    | none =>
        refine ⟨?_, ?_, ?_, ?_⟩ <;> simp [hhh]
    | some idx =>
        simp only [hhh, if_true]
        cases hidx : ctx.hotplugCbs[idx]? with
        | none =>
            cases hev : ctx.handlingEvents <;>
              (refine ⟨?_, ?_, ?_, ?_⟩ <;> simp [hhh, hev])
        | some cb =>
            have hmap : (ctx.hotplugCbs.set idx
                  { cb with needsFree := true }).map (fun cb => cb.notifications)
                = ctx.hotplugCbs.map (fun cb => cb.notifications) :=
              map_set_eq _ _ idx _ cb hidx rfl
            cases hev : ctx.handlingEvents <;>
              (refine ⟨?_, ?_, ?_, ?_⟩ <;> simp [hhh, hev, hmap])

/-- Folding nested deregistrations during dispatch preserves the same
state components. -/
theorem applyDeregs_dispatch_preserves (hp : Bool) :
    ∀ (hs : List Int) (ctx : Ctx), ctx.handlingHotplug = true →
    (applyDeregs hp ctx hs).1.refCnt = ctx.refCnt ∧
    (applyDeregs hp ctx hs).1.usbDevs = ctx.usbDevs ∧
    (applyDeregs hp ctx hs).1.handlingHotplug = true ∧
    (applyDeregs hp ctx hs).1.hotplugCbs.map (fun cb => cb.notifications) =
      ctx.hotplugCbs.map (fun cb => cb.notifications) := by
  intro hs
  induction hs with
  | nil => intro ctx hhh; exact ⟨rfl, rfl, hhh, rfl⟩
  | cons h rest ih =>
      intro ctx hhh
      obtain ⟨d1, d2, d3, d4⟩ := deregister_dispatch_preserves hp ctx h hhh
      obtain ⟨i1, i2, i3, i4⟩ :=
        ih (libusb_hotplug_deregister_callback hp ctx h).1 d3
      exact ⟨by rw [show (applyDeregs hp ctx (h :: rest)).1 =
          (applyDeregs hp (libusb_hotplug_deregister_callback hp ctx h).1
            rest).1 from rfl, i1, d1],
        by rw [show (applyDeregs hp ctx (h :: rest)).1 =
          (applyDeregs hp (libusb_hotplug_deregister_callback hp ctx h).1
            rest).1 from rfl, i2, d2],
        by rw [show (applyDeregs hp ctx (h :: rest)).1 =
          (applyDeregs hp (libusb_hotplug_deregister_callback hp ctx h).1
            rest).1 from rfl, i3],
        by rw [show (applyDeregs hp ctx (h :: rest)).1 =
          (applyDeregs hp (libusb_hotplug_deregister_callback hp ctx h).1
            rest).1 from rfl, i4, d4]⟩

/-- The inner notification loop of the dispatcher preserves reference
counts, the device list, the handling guard and every record's
notification queue (only needs-free flags and event flags may change). -/
theorem run_queue_preserves (hp : Bool) (env : Env) (idx : Nat) :
    ∀ (q : List Notification) (ctx : Ctx), ctx.handlingHotplug = true →
    (run_queue hp env ctx idx q).1.refCnt = ctx.refCnt ∧
    (run_queue hp env ctx idx q).1.usbDevs = ctx.usbDevs ∧
    (run_queue hp env ctx idx q).1.handlingHotplug = true ∧
    (run_queue hp env ctx idx q).1.hotplugCbs.map
        (fun cb => cb.notifications) =
      ctx.hotplugCbs.map (fun cb => cb.notifications) := by
  intro q
  induction q with
  | nil => intro ctx hhh; exact ⟨rfl, rfl, hhh, rfl⟩
  | cons n rest ih =>
      intro ctx hhh
      cases hidx : ctx.hotplugCbs[idx]? with
      | none =>
          rw [run_queue_cons_none hp env ctx idx n rest hidx]
          exact ⟨rfl, rfl, hhh, rfl⟩
      | some cb =>
          cases hm : cb.needsFree with
          | true =>
              rw [run_queue_cons_marked hp env ctx idx cb n rest hidx hm]
              exact ⟨rfl, rfl, hhh, rfl⟩
          | false =>
              rw [run_queue_cons_step hp env ctx idx cb n rest hidx hm]
              obtain ⟨a1, a2, a3, a4⟩ := applyDeregs_dispatch_preserves hp
                (env cb.cbId n.deviceId n.event cb.userData).2 ctx hhh
              by_cases hr : (env cb.cbId n.deviceId n.event cb.userData).1 ≠ 0
              · rw [if_pos hr]
                exact ⟨a1, a2, a3, a4⟩
              · rw [if_neg hr]
                obtain ⟨i1, i2, i3, i4⟩ := ih
                  (applyDeregs hp ctx
                    (env cb.cbId n.deviceId n.event cb.userData).2).1 a3
                exact ⟨i1.trans a1, i2.trans a2, i3, i4.trans a4⟩

/-- Accounting for `free_hotplug_cb`: destroying a record releases the
device reference of each of its queued notifications exactly once. -/
theorem free_hotplug_cb_accounting (ctx : Ctx) (idx : Nat)
    (hinv : RefInv ctx) :
    (∀ d, (free_hotplug_cb ctx idx).refCnt d + queuedCount ctx d =
      ctx.refCnt d + queuedCount (free_hotplug_cb ctx idx) d) ∧
    (∀ d, queuedCount (free_hotplug_cb ctx idx) d ≤ queuedCount ctx d) ∧
    RefInv (free_hotplug_cb ctx idx) ∧
    (free_hotplug_cb ctx idx).usbDevs = ctx.usbDevs ∧
    (free_hotplug_cb ctx idx).handlingHotplug = ctx.handlingHotplug := by
  cases hidx : ctx.hotplugCbs[idx]? with
  | none =>
      have hfree : free_hotplug_cb ctx idx = ctx := by
        unfold free_hotplug_cb
        rw [hidx]
      rw [hfree]
      exact ⟨fun d => rfl, fun d => Nat.le_refl _, hinv, rfl, rfl⟩
  | some cb =>
      have hfree : free_hotplug_cb ctx idx =
          { ctx with
              refCnt := releaseNotifications ctx.refCnt cb.notifications
              hotplugCbs := ctx.hotplugCbs.eraseIdx idx } := by
        unfold free_hotplug_cb
        rw [hidx]
      have hr : (free_hotplug_cb ctx idx).refCnt =
          releaseNotifications ctx.refCnt cb.notifications := by rw [hfree]
      have hl : (free_hotplug_cb ctx idx).hotplugCbs =
          ctx.hotplugCbs.eraseIdx idx := by rw [hfree]
      have hu : (free_hotplug_cb ctx idx).usbDevs = ctx.usbDevs := by rw [hfree]
      have hh : (free_hotplug_cb ctx idx).handlingHotplug =
          ctx.handlingHotplug := by rw [hfree]
      have hq : ∀ d, queuedCount (free_hotplug_cb ctx idx) d +
          countIn cb.notifications d = queuedCount ctx d := by
        intro d
        simp only [queuedCount]
        rw [hl]
        exact sum_map_eraseIdx (fun cb => countIn cb.notifications d)
          ctx.hotplugCbs idx cb hidx
      have hlc : ∀ d, listCount (free_hotplug_cb ctx idx) d = listCount ctx d := by
        intro d
        simp only [listCount]
        rw [hu]
      refine ⟨?_, ?_, ?_, hu, hh⟩
      · intro d
        have h2 := releaseNotifications_apply cb.notifications ctx.refCnt d
        have h3 := hinv d
        have h4 := hq d
        rw [hr] at *
        rw [h2]
        omega
      · intro d
        have h4 := hq d
        omega
      · intro d
        have h2 := releaseNotifications_apply cb.notifications ctx.refCnt d
        have h3 := hinv d
        have h4 := hq d
        have h5 := hlc d
        rw [hr, h2, h5]
        omega

/-- Accounting for one record's processing by the dispatcher: whatever the
callback returns and whoever it deregisters, the number of references
released equals the number of notifications removed from the record's
queue, and the reference-count invariant is preserved. -/
theorem process_one_accounting (hp : Bool) (env : Env) (ctx : Ctx) (idx : Nat)
    (hhh : ctx.handlingHotplug = true) (hinv : RefInv ctx) :
    (∀ d, (process_one_hotplug_cb hp env ctx idx).1.refCnt d +
        queuedCount ctx d =
      ctx.refCnt d + queuedCount (process_one_hotplug_cb hp env ctx idx).1 d) ∧
    (∀ d, queuedCount (process_one_hotplug_cb hp env ctx idx).1 d ≤
      queuedCount ctx d) ∧
    RefInv (process_one_hotplug_cb hp env ctx idx).1 ∧
    (process_one_hotplug_cb hp env ctx idx).1.handlingHotplug = true ∧
    (process_one_hotplug_cb hp env ctx idx).1.usbDevs = ctx.usbDevs := by
  cases hidx : ctx.hotplugCbs[idx]? with
  | none =>
      have hp1 : process_one_hotplug_cb hp env ctx idx = (ctx, []) := by
        simp only [process_one_hotplug_cb, hidx]
      rw [hp1]
      exact ⟨fun d => rfl, fun d => Nat.le_refl _, hinv, hhh, rfl⟩
  | some cb =>
      by_cases hq : cb.notifications = []
      · have hp1 : process_one_hotplug_cb hp env ctx idx = (ctx, []) := by
          simp only [process_one_hotplug_cb, hidx]
          rw [if_pos hq]
        rw [hp1]
        exact ⟨fun d => rfl, fun d => Nat.le_refl _, hinv, hhh, rfl⟩
      · obtain ⟨r1, r2, r3, r4⟩ :=
          run_queue_preserves hp env idx cb.notifications ctx hhh
        have hqc : ∀ d,
            queuedCount (run_queue hp env ctx idx cb.notifications).1 d =
              queuedCount ctx d :=
          queuedCount_eq_of_map_eq _ ctx r4
        have hmapidx :
            ((run_queue hp env ctx idx cb.notifications).1.hotplugCbs.map
              (fun cb => cb.notifications))[idx]? = some cb.notifications := by
          rw [r4, List.getElem?_map, hidx]
          rfl
        have hinvR : RefInv (run_queue hp env ctx idx cb.notifications).1 := by
          intro d
          have h5 : listCount (run_queue hp env ctx idx cb.notifications).1 d =
              listCount ctx d := by
            simp only [listCount]
            rw [r2]
          rw [hqc d, r1, h5]
          exact hinv d
        cases hRidx :
            (run_queue hp env ctx idx cb.notifications).1.hotplugCbs[idx]? with
        | none =>
            rw [List.getElem?_map, hRidx] at hmapidx
            simp at hmapidx
        | some cbX =>
            have hXnot : cbX.notifications = cb.notifications := by
              rw [List.getElem?_map, hRidx] at hmapidx
              simpa using hmapidx
            by_cases hret : (run_queue hp env ctx idx cb.notifications).2.1 ≠ 0
            · have hp1 : process_one_hotplug_cb hp env ctx idx =
                  (free_hotplug_cb (run_queue hp env ctx idx cb.notifications).1
                    idx,
                   (run_queue hp env ctx idx cb.notifications).2.2) := by
                simp only [process_one_hotplug_cb, hidx]
                rw [if_neg hq, if_pos hret]
              obtain ⟨f1, f2, f3, f4, f5⟩ := free_hotplug_cb_accounting
                (run_queue hp env ctx idx cb.notifications).1 idx hinvR
              rw [hp1]
              refine ⟨?_, ?_, f3, f5.trans r3, f4.trans r2⟩
              · intro d
                have h1 := f1 d
                rw [hqc d, r1] at h1
                exact h1
              · intro d
                have h1 := f2 d
                rw [hqc d] at h1
                exact h1
            · have hp1 : process_one_hotplug_cb hp env ctx idx =
                  ({ (run_queue hp env ctx idx cb.notifications).1 with
                      refCnt := releaseNotifications
                        (run_queue hp env ctx idx cb.notifications).1.refCnt
                        cbX.notifications
                      hotplugCbs :=
                        (run_queue hp env ctx idx
                          cb.notifications).1.hotplugCbs.set idx
                          { cbX with notifications := [] } },
                   (run_queue hp env ctx idx cb.notifications).2.2) := by
                simp only [process_one_hotplug_cb, hidx]
                rw [if_neg hq, if_neg hret, hRidx]
              have hPr : (process_one_hotplug_cb hp env ctx idx).1.refCnt =
                  releaseNotifications
                    (run_queue hp env ctx idx cb.notifications).1.refCnt
                    cbX.notifications := by
                rw [hp1]
              have hPu : (process_one_hotplug_cb hp env ctx idx).1.usbDevs =
                  (run_queue hp env ctx idx cb.notifications).1.usbDevs := by
                rw [hp1]
              have hPh : (process_one_hotplug_cb hp env ctx idx).1.handlingHotplug
                  = (run_queue hp env ctx idx
                      cb.notifications).1.handlingHotplug := by
                rw [hp1]
              have hqnew : ∀ d,
                  queuedCount (process_one_hotplug_cb hp env ctx idx).1 d +
                    countIn cb.notifications d = queuedCount ctx d := by
                intro d
                rw [hp1]
                simp only [queuedCount]
                have h1 := sum_map_set (fun cb => countIn cb.notifications d)
                  (run_queue hp env ctx idx cb.notifications).1.hotplugCbs idx
                  cbX { cbX with notifications := [] } hRidx
                have h2 : countIn ([] : List Notification) d = 0 := rfl
                have h3 := hqc d
                simp only [queuedCount] at h3
                dsimp only at h1
                rw [hXnot] at h1
                omega
              have hlnew : ∀ d,
                  listCount (process_one_hotplug_cb hp env ctx idx).1 d =
                    listCount ctx d := by
                intro d
                simp only [listCount]
                rw [hPu, r2]
              refine ⟨?_, ?_, ?_, hPh.trans r3, hPu.trans r2⟩
              · intro d
                have h1 := hqnew d
                have h3 := hinv d
                rw [hPr, releaseNotifications_apply, hXnot, congrFun r1 d]
                omega
              · intro d
                have h1 := hqnew d
                omega
              · intro d
                have h1 := hqnew d
                have h3 := hinv d
                rw [hlnew d, hPr, releaseNotifications_apply, hXnot,
                  congrFun r1 d]
                omega

/-- Accounting for the dispatcher's first pass. -/
theorem process_pass_accounting (hp : Bool) (env : Env) :
    ∀ (k : Nat) (ctx : Ctx), ctx.handlingHotplug = true → RefInv ctx →
    (∀ d, (process_pass hp env ctx k).1.refCnt d + queuedCount ctx d =
      ctx.refCnt d + queuedCount (process_pass hp env ctx k).1 d) ∧
    (∀ d, queuedCount (process_pass hp env ctx k).1 d ≤ queuedCount ctx d) ∧
    RefInv (process_pass hp env ctx k).1 ∧
    (process_pass hp env ctx k).1.handlingHotplug = true ∧
    (process_pass hp env ctx k).1.usbDevs = ctx.usbDevs := by
  intro k
  induction k with
  | zero =>
      intro ctx hhh hinv
      exact ⟨fun d => rfl, fun d => Nat.le_refl _, hinv, hhh, rfl⟩
  | succ k ih =>
      intro ctx hhh hinv
      obtain ⟨p1, p2, p3, p4, p5⟩ := process_one_accounting hp env ctx
        (ctx.hotplugCbs.length - (k + 1)) hhh hinv
      obtain ⟨i1, i2, i3, i4, i5⟩ := ih
        (process_one_hotplug_cb hp env ctx (ctx.hotplugCbs.length - (k + 1))).1
        p4 p3
      have hstep : (process_pass hp env ctx (k + 1)).1 =
          (process_pass hp env
            (process_one_hotplug_cb hp env ctx
              (ctx.hotplugCbs.length - (k + 1))).1 k).1 := rfl
      rw [hstep]
      refine ⟨?_, ?_, i3, i4, i5.trans p5⟩
      · intro d
        have a1 := p1 d
        have a2 := i1 d
        have a3 := p2 d
        have a4 := i2 d
        omega
      · intro d
        have a3 := p2 d
        have a4 := i2 d
        omega

/-- Accounting for the dispatcher's deferred-free sweep. -/
theorem sweep_free_accounting :
    ∀ (k : Nat) (ctx : Ctx), RefInv ctx →
    (∀ d, (sweep_free ctx k).refCnt d + queuedCount ctx d =
      ctx.refCnt d + queuedCount (sweep_free ctx k) d) ∧
    (∀ d, queuedCount (sweep_free ctx k) d ≤ queuedCount ctx d) ∧
    RefInv (sweep_free ctx k) ∧
    (sweep_free ctx k).usbDevs = ctx.usbDevs := by
  intro k
  induction k with
  | zero =>
      intro ctx hinv
      exact ⟨fun d => rfl, fun d => Nat.le_refl _, hinv, rfl⟩
  | succ k ih =>
      intro ctx hinv
      cases hidx : ctx.hotplugCbs[ctx.hotplugCbs.length - (k + 1)]? with
      | none =>
          have hstep : sweep_free ctx (k + 1) = sweep_free ctx k := by
            rw [show sweep_free ctx (k + 1) =
              (match ctx.hotplugCbs[ctx.hotplugCbs.length - (k + 1)]? with
               | none => sweep_free ctx k
               | some cb =>
                  if cb.needsFree then
                    sweep_free
                      (free_hotplug_cb ctx (ctx.hotplugCbs.length - (k + 1))) k
                  else sweep_free ctx k) from rfl]
            rw [hidx]
          rw [hstep]
          exact ih ctx hinv
      | some cb =>
          have hstep : sweep_free ctx (k + 1) =
              (if cb.needsFree then
                sweep_free
                  (free_hotplug_cb ctx (ctx.hotplugCbs.length - (k + 1))) k
              else sweep_free ctx k) := by
            rw [show sweep_free ctx (k + 1) =
              (match ctx.hotplugCbs[ctx.hotplugCbs.length - (k + 1)]? with
               | none => sweep_free ctx k
               | some cb =>
                  if cb.needsFree then
                    sweep_free
                      (free_hotplug_cb ctx (ctx.hotplugCbs.length - (k + 1))) k
                  else sweep_free ctx k) from rfl]
            rw [hidx]
          cases hm : cb.needsFree with
          | false =>
              rw [hstep, if_neg (by simp [hm])]
              exact ih ctx hinv
          | true =>
              rw [hstep, if_pos (by simp [hm])]
              obtain ⟨f1, f2, f3, f4, _⟩ := free_hotplug_cb_accounting ctx
                (ctx.hotplugCbs.length - (k + 1)) hinv
              obtain ⟨i1, i2, i3, i4⟩ := ih
                (free_hotplug_cb ctx (ctx.hotplugCbs.length - (k + 1))) f3
              refine ⟨?_, ?_, i3, i4.trans f4⟩
              · intro d
                have a1 := f1 d
                have a2 := i1 d
                have a3 := f2 d
                have a4 := i2 d
                omega
              · intro d
                have a3 := f2 d
                have a4 := i2 d
                omega

/-- Accounting for `libusb_hotplug_deregister_callback` outside dispatch:
destroying a record releases exactly its queued notifications'
references; deferring only flags the record. -/
theorem deregister_accounting (hp : Bool) (ctx : Ctx) (h : Int)
    (hinv : RefInv ctx) :
    (∀ d, (libusb_hotplug_deregister_callback hp ctx h).1.refCnt d +
        queuedCount ctx d =
      ctx.refCnt d +
        queuedCount (libusb_hotplug_deregister_callback hp ctx h).1 d) ∧
    (∀ d, queuedCount (libusb_hotplug_deregister_callback hp ctx h).1 d ≤
      queuedCount ctx d) ∧
    RefInv (libusb_hotplug_deregister_callback hp ctx h).1 := by
  cases hp
  · exact ⟨fun d => rfl, fun d => Nat.le_refl _, hinv⟩
  · unfold libusb_hotplug_deregister_callback
    simp only [Bool.not_true, Bool.false_eq_true, if_false]
    cases hfind : ctx.hotplugCbs.findIdx? (fun cb => cb.handle == h) with
    | none =>
        exact ⟨fun d => rfl, fun d => Nat.le_refl _, hinv⟩
    | some idx =>
        cases hhh : ctx.handlingHotplug with
        | true =>
            simp only [if_true]
            cases hidx : ctx.hotplugCbs[idx]? with
            | none =>
                cases hev : ctx.handlingEvents <;>
                  exact ⟨fun d => rfl, fun d => Nat.le_refl _, hinv⟩
            | some cb =>
                have hset : ∀ d,
                    (ctx.hotplugCbs.map
                      (fun x => countIn x.notifications d)).set idx
                        (countIn cb.notifications d) =
                      ctx.hotplugCbs.map (fun x => countIn x.notifications d) :=
                  fun d => set_getElem_self
                    (by rw [List.getElem?_map, hidx]; rfl)
                have h2 := hinv
                simp only [RefInv, queuedCount, listCount] at h2
                cases hev : ctx.handlingEvents
                · refine ⟨?_, ?_, ?_⟩
                  · intro d
                    simp only [queuedCount, listCount]
                    simp [hset d]
                  · intro d
                    simp only [queuedCount, listCount]
                    simp [hset d]
                  · intro d
                    simp only [queuedCount, listCount]
                    simp [hset d]
                    have h3 := h2 d
                    omega
                · refine ⟨?_, ?_, ?_⟩
                  · intro d
                    simp only [queuedCount, listCount]
                    simp [hset d]
                  · intro d
                    simp only [queuedCount, listCount]
                    simp [hset d]
                  · intro d
                    simp only [queuedCount, listCount]
                    simp [hset d]
                    have h3 := h2 d
                    omega
        | false =>
            simp only [Bool.false_eq_true, if_false]
            have hinv1 :
                RefInv
                  { ctx with
                      handlingHotplug := false
                      lockCount := ctx.lockCount + 1 } :=
              hinv
            obtain ⟨f1, f2, f3, _, _⟩ := free_hotplug_cb_accounting
              { ctx with
                  handlingHotplug := false
                  lockCount := ctx.lockCount + 1 } idx hinv1
            refine ⟨?_, ?_, ?_⟩
            · intro d
              split <;> exact f1 d
            · intro d
              split <;> exact f2 d
            · intro d
              split <;> exact f3 d

/-! ## Claim theorems -/

/-- C7: the match predicate `hotplug_cb_match` returns true if and only if
the event bit is present in the record's event mask and each present
filter (vendor id, product id, device class) equals the device's
corresponding descriptor field exactly; an absent (match-any) filter
imposes no constraint. -/
theorem hotplug_cb_match_iff (cb : HotplugCb) (desc : DeviceDesc) (ev : Event) :
    hotplug_cb_match cb desc ev = true ↔
      (eventBit cb ev = true ∧
        (cb.vendorValid = true → cb.vendorId = desc.idVendor) ∧
        (cb.productValid = true → cb.productId = desc.idProduct) ∧
        (cb.classValid = true → cb.devClass = desc.bDeviceClass)) := by
  unfold hotplug_cb_match
  cases hev : eventBit cb ev <;> cases hv : cb.vendorValid <;>
    cases hp : cb.productValid <;> cases hc : cb.classValid <;>
      (simp [bne_iff_ne]; try tauto)

/-- C5 (code bug): `libusb_hotplug_get_user_data` performs the lookup
correctly and leaves the registry untouched, but instead of releasing
`usb_devs_lock` it acquires it a second time (hotplug.c line 562), so it
returns with the lock held at depth 2 rather than restoring the lock state
it found. -/
theorem get_user_data_leaves_lock_held :
    (libusb_hotplug_get_user_data true sampleCtx 1).1 = 42 ∧
    (libusb_hotplug_get_user_data true sampleCtx 5).1 = 0 ∧
    (libusb_hotplug_get_user_data true sampleCtx 1).2.1.hotplugCbs =
      sampleCtx.hotplugCbs ∧
    sampleCtx.lockCount = 0 ∧
    (libusb_hotplug_get_user_data true sampleCtx 1).2.1.lockCount = 2 :=
  ⟨rfl, rfl, rfl, rfl, rfl⟩

/-- C8: deregistering a handle that no registered record carries is a
no-op: the context (registry, queues, device list, flags, lock state) is
returned exactly as it was, and no deregistration signal is raised. -/
theorem deregister_unknown_handle_noop (hasHotplug : Bool) (ctx : Ctx)
    (h : Int) (hunk : ∀ cb ∈ ctx.hotplugCbs, cb.handle ≠ h) :
    (libusb_hotplug_deregister_callback hasHotplug ctx h).1 = ctx := by
  unfold libusb_hotplug_deregister_callback
  cases hasHotplug
  · rfl
  · have hfind : ctx.hotplugCbs.findIdx? (fun cb => cb.handle == h) = none := by
      rw [List.findIdx?_eq_none_iff]
      intro cb hcb
      simpa using hunk cb hcb
    simp only [Bool.not_true, Bool.false_eq_true, if_false, hfind]
    simp

/-- Witness for C8 at a concrete input: handle 99 is not registered in
`sampleCtx`, and deregistering it returns the context unchanged. -/
theorem deregister_unknown_handle_noop_witness :
    (∀ cb ∈ sampleCtx.hotplugCbs, cb.handle ≠ 99) ∧
    (libusb_hotplug_deregister_callback true sampleCtx 99).1 = sampleCtx :=
  ⟨by decide, deregister_unknown_handle_noop true sampleCtx 99 (by decide)⟩

/-- C10: the handle allocator yields 1 on the first allocation after
`usbi_hotplug_init`, strictly increasing handles on successive allocations
before wraparound, and resets to 1 when the counter overflows into the
negative range; two sequential successful registrations before wraparound
return two distinct, increasing handles. -/
theorem handle_allocator_monotonic_reset :
    (∀ ctx : Ctx, (usbi_hotplug_init true ctx).nextHotplugCbHandle = 1) ∧
    alloc_cb_handle 1 = (1, 2) ∧
    (∀ n : Int, 1 ≤ n → n < intMax →
      alloc_cb_handle n = (n, n + 1) ∧ n < n + 1) ∧
    (alloc_cb_handle intMax = (intMax, 1) ∧ (alloc_cb_handle 1).1 = 1) ∧
    (∀ (env : Env) (ctx : Ctx)
        (events flags vendorArg productArg classArg : Int)
        (callback userData : Nat),
      invalid_params events flags vendorArg productArg classArg callback = false →
      ((u32 flags).testBit 0 && (u32 events).testBit 0) = false →
      1 ≤ ctx.nextHotplugCbHandle → ctx.nextHotplugCbHandle < intMax →
      (libusb_hotplug_register_callback true env true ctx events flags vendorArg
          productArg classArg callback userData).1 = .ok ctx.nextHotplugCbHandle ∧
      (libusb_hotplug_register_callback true env true
          (libusb_hotplug_register_callback true env true ctx events flags vendorArg
            productArg classArg callback userData).2.1 events flags vendorArg
          productArg classArg callback userData).1 =
        .ok (ctx.nextHotplugCbHandle + 1) ∧
      ctx.nextHotplugCbHandle < ctx.nextHotplugCbHandle + 1) := by
  refine ⟨fun ctx => rfl, by decide, ?_, ⟨by decide, rfl⟩, ?_⟩
  · intro n h1 h2
    exact ⟨alloc_cb_handle_no_wrap n h1 h2, by omega⟩
  · intro env ctx events flags vendorArg productArg classArg callback userData
      hval hflag h1 h2
    have halloc := alloc_cb_handle_no_wrap ctx.nextHotplugCbHandle h1 h2
    refine ⟨?_, ?_, by omega⟩
    · simp only [libusb_hotplug_register_callback, hval, Bool.false_eq_true,
        if_false, Bool.not_true, hflag]
      rfl
    · simp only [libusb_hotplug_register_callback, hval, Bool.false_eq_true,
        if_false, Bool.not_true, hflag, halloc]
      rfl

/-- Witness for C10's quantified parts at concrete inputs: allocating from
counter value 5 yields handle 5 and counter 6, and two sequential
registrations on `sampleCtx` (counter 2) yield the increasing handles 2
and 3. -/
theorem handle_allocator_monotonic_reset_witness :
    (alloc_cb_handle 5 = (5, 6) ∧ (5 : Int) < 6) ∧
    ((libusb_hotplug_register_callback true envRearm true sampleCtx 1 0 (-1) (-1)
        (-1) 1 0).1 = .ok 2 ∧
      (libusb_hotplug_register_callback true envRearm true
          (libusb_hotplug_register_callback true envRearm true sampleCtx 1 0 (-1)
            (-1) (-1) 1 0).2.1 1 0 (-1) (-1) (-1) 1 0).1 = .ok 3 ∧
      (2 : Int) < 3) :=
  ⟨handle_allocator_monotonic_reset.2.2.1 5 (by decide) (by decide),
   handle_allocator_monotonic_reset.2.2.2.2 envRearm sampleCtx 1 0 (-1) (-1) (-1)
     1 0 (by decide) (by decide) (by decide) (by decide)⟩

/-- C6: on a hotplug-capable platform, `libusb_hotplug_register_callback`
returns `LIBUSB_ERROR_INVALID_PARAM` exactly when the arguments are
malformed (events zero or with a bit outside {Arrived, Left}, flags with a
bit outside {Enumerate}, vendor/product id neither the match-any sentinel
nor in [0, 0xFFFF], device class neither match-any nor in [0, 0xFF], or a
null callback), and on such a failure the context is returned unmodified
with no observable action. -/
theorem register_invalid_param_iff_malformed
    (env : Env) (allocOk : Bool) (ctx : Ctx)
    (events flags vendorArg productArg classArg : Int) (callback userData : Nat)
    (hev : -(2 ^ 31) ≤ events ∧ events < 2 ^ 31)
    (hfl : -(2 ^ 31) ≤ flags ∧ flags < 2 ^ 31)
    (hv : -(2 ^ 31) ≤ vendorArg ∧ vendorArg < 2 ^ 31)
    (hp : -(2 ^ 31) ≤ productArg ∧ productArg < 2 ^ 31)
    (hc : -(2 ^ 31) ≤ classArg ∧ classArg < 2 ^ 31) :
    ((libusb_hotplug_register_callback true env allocOk ctx events flags vendorArg
        productArg classArg callback userData).1 = .error errInvalidParam ↔
      (¬(1 ≤ events ∧ events ≤ 3) ∨ ¬(0 ≤ flags ∧ flags ≤ 1) ∨
       (vendorArg ≠ matchAny ∧ ¬(0 ≤ vendorArg ∧ vendorArg ≤ 0xFFFF)) ∨
       (productArg ≠ matchAny ∧ ¬(0 ≤ productArg ∧ productArg ≤ 0xFFFF)) ∨
       (classArg ≠ matchAny ∧ ¬(0 ≤ classArg ∧ classArg ≤ 0xFF)) ∨
       callback = 0)) ∧
    (invalid_params events flags vendorArg productArg classArg callback = true →
      (libusb_hotplug_register_callback true env allocOk ctx events flags
          vendorArg productArg classArg callback userData).2.1 = ctx ∧
      (libusb_hotplug_register_callback true env allocOk ctx events flags
          vendorArg productArg classArg callback userData).2.2 = ([] : List Ev)) := by
  have hiff := invalid_params_iff events flags vendorArg productArg classArg
    callback hev hfl hv hp hc
  by_cases hval : invalid_params events flags vendorArg productArg classArg callback = true
  · refine ⟨?_, fun _ => ?_⟩
    · simp only [libusb_hotplug_register_callback, hval, if_true]
      simpa using hiff.mp hval
    · simp [libusb_hotplug_register_callback, hval]
  · have hval' : invalid_params events flags vendorArg productArg classArg callback = false := by
      simpa using hval
    refine ⟨?_, fun hcontra => absurd hcontra hval⟩
    rw [hval'] at hiff
    simp only [libusb_hotplug_register_callback, hval', Bool.false_eq_true,
      if_false, Bool.not_true]
    cases allocOk
    · simp only [Bool.not_false, if_true]
      constructor
      · intro hret
        exact absurd (by injection hret) (by decide)
      · intro hr
        exact absurd hr (by simpa using hiff)
    · simp only [Bool.not_true, Bool.false_eq_true, if_false]
      constructor
      · intro hret
        simp at hret
      · intro hr
        exact absurd hr (by simpa using hiff)

/-- Witness for C6 at a concrete input: registering with `events = 0`
(and otherwise well-formed arguments) on a hotplug-capable platform fails
with `LIBUSB_ERROR_INVALID_PARAM`. -/
theorem register_invalid_param_iff_malformed_witness :
    (libusb_hotplug_register_callback true envRearm true sampleCtx 0 0 (-1) (-1)
        (-1) 1 0).1 = .error errInvalidParam :=
  (register_invalid_param_iff_malformed envRearm true sampleCtx 0 0 (-1) (-1) (-1)
      1 0 (by decide) (by decide) (by decide) (by decide) (by decide)).1.mpr
    (Or.inl (by decide))

/-- C4 counterexample: on a platform with no hotplug capability, a
malformed registration (here `events = 0`) returns
`LIBUSB_ERROR_INVALID_PARAM`, not `LIBUSB_ERROR_NOT_SUPPORTED`: the
argument check precedes the capability check (hotplug.c lines 401-411). -/
theorem register_no_hotplug_malformed_counterexample :
    (libusb_hotplug_register_callback false envRearm true sampleCtx 0 0 (-1) (-1)
        (-1) 1 0).1 = .error errInvalidParam ∧
    errInvalidParam ≠ errNotSupported :=
  ⟨rfl, by decide⟩

/-- C4 (amended): if the platform backend reports no hotplug capability
and the arguments pass the sanity check, `libusb_hotplug_register_callback`
fails with `LIBUSB_ERROR_NOT_SUPPORTED` and leaves the context untouched;
a malformed tuple instead fails with `LIBUSB_ERROR_INVALID_PARAM` even
without hotplug capability. -/
theorem register_no_hotplug_not_supported
    (env : Env) (allocOk : Bool) (ctx : Ctx)
    (events flags vendorArg productArg classArg : Int) (callback userData : Nat)
    (hval : invalid_params events flags vendorArg productArg classArg callback
      = false) :
    libusb_hotplug_register_callback false env allocOk ctx events flags vendorArg
        productArg classArg callback userData
      = (.error errNotSupported, ctx, []) := by
  simp [libusb_hotplug_register_callback, hval]

/-- Witness for C4's amended statement at a concrete input. -/
theorem register_no_hotplug_not_supported_witness :
    libusb_hotplug_register_callback false envRearm true sampleCtx 1 0 (-1) (-1)
        (-1) 1 0
      = (.error errNotSupported, sampleCtx, []) :=
  register_no_hotplug_not_supported envRearm true sampleCtx 1 0 (-1) (-1) (-1) 1 0
    (by decide)

/-- C9: a notification-append allocation failure during fan-out drops
only that single (record, device, event) delivery: the registry after
`hotplug_notification` is the pointwise map in which every matching record
whose reallocation succeeds gains exactly one appended notification and
every other record is untouched; the call itself is total, the `notified`
flag is set exactly when at least one notification was actually enqueued,
and both event hooks raise the pending-notification signal exactly when
`notified` is set. -/
theorem notification_fanout_alloc_failure_isolated
    (allocOk : Int → Bool) (ctx : Ctx) (d : Nat) (ev : Event) :
    ((hotplug_notification allocOk ctx d ev).1.hotplugCbs =
      ctx.hotplugCbs.map (fun cb =>
        if hotplug_cb_match cb (ctx.devDesc d) ev && allocOk cb.handle then
          { cb with notifications := cb.notifications ++ [⟨ev, d⟩] }
        else cb)) ∧
    ((hotplug_notification allocOk ctx d ev).2 =
      ctx.hotplugCbs.any (fun cb =>
        hotplug_cb_match cb (ctx.devDesc d) ev && allocOk cb.handle)) ∧
    ((usbi_connect_device true allocOk ctx d).pendingEventFlag =
      ((ctx.hotplugCbs.any (fun cb =>
          hotplug_cb_match cb (ctx.devDesc d) .arrived && allocOk cb.handle)) ||
        ctx.pendingEventFlag)) ∧
    ((usbi_disconnect_device true allocOk ctx d).pendingEventFlag =
      ((ctx.hotplugCbs.any (fun cb =>
          hotplug_cb_match cb (ctx.devDesc d) .left && allocOk cb.handle)) ||
        ctx.pendingEventFlag)) := by
  refine ⟨?_, ?_, ?_, ?_⟩
  · unfold hotplug_notification
    exact notify_cbs_fst allocOk (ctx.devDesc d) d ev ctx.refCnt ctx.hotplugCbs
  · unfold hotplug_notification
    exact notify_cbs_notified allocOk (ctx.devDesc d) d ev ctx.refCnt ctx.hotplugCbs
  · cases h : ctx.hotplugCbs.any (fun cb =>
        hotplug_cb_match cb (ctx.devDesc d) .arrived && allocOk cb.handle)
    · simp [usbi_connect_device, hotplug_notification, notify_cbs_notified, h]
    · simp [usbi_connect_device, hotplug_notification, notify_cbs_notified, h]
  · cases h : ctx.hotplugCbs.any (fun cb =>
        hotplug_cb_match cb (ctx.devDesc d) .left && allocOk cb.handle)
    · simp [usbi_disconnect_device, hotplug_notification, notify_cbs_notified, h]
    · simp [usbi_disconnect_device, hotplug_notification, notify_cbs_notified, h]

/-- C2: registering with the Enumerate flag set and Arrived in the event
mask synchronously invokes the callback, before
`libusb_hotplug_register_callback` returns, exactly once for each
currently-live device matching the new record's filters, in live-list
order; the whole operation happens under a single acquisition of
`usb_devs_lock` (the trace is exactly one lock, the replay invocations and
one unlock, and the lock depth is restored); the record is appended to the
registry tail after the replay; and the callback's return values are
ignored: any environment assigning the registered callback the same nested
deregistrations (here: none) yields the identical result, state and
trace. -/
theorem register_enumerate_replay_synchronous
    (env : Env) (ctx : Ctx)
    (events flags vendorArg productArg classArg : Int) (callback userData : Nat)
    (hval : invalid_params events flags vendorArg productArg classArg callback
      = false)
    (henum : (u32 flags).testBit 0 = true)
    (harr : (u32 events).testBit 0 = true)
    (hnd : ∀ d u, (env callback d .arrived u).2 = []) :
    (libusb_hotplug_register_callback true env true ctx events flags vendorArg
        productArg classArg callback userData).1 = .ok ctx.nextHotplugCbHandle ∧
    (libusb_hotplug_register_callback true env true ctx events flags vendorArg
        productArg classArg callback userData).2.1.hotplugCbs =
      ctx.hotplugCbs ++
        [{ mk_hotplug_cb events vendorArg productArg classArg callback userData
             with handle := ctx.nextHotplugCbHandle }] ∧
    (libusb_hotplug_register_callback true env true ctx events flags vendorArg
        productArg classArg callback userData).2.2 =
      Ev.lock :: ((ctx.usbDevs.filter (fun d =>
          hotplug_cb_match
            { mk_hotplug_cb events vendorArg productArg classArg callback
                userData with handle := ctx.nextHotplugCbHandle }
            (ctx.devDesc d) .arrived)).map
        (fun d => Ev.invoke ctx.nextHotplugCbHandle d .arrived userData))
        ++ [Ev.unlock] ∧
    (libusb_hotplug_register_callback true env true ctx events flags vendorArg
        productArg classArg callback userData).2.1.lockCount = ctx.lockCount ∧
    (∀ env' : Env, (∀ d u, (env' callback d .arrived u).2 = []) →
      libusb_hotplug_register_callback true env' true ctx events flags vendorArg
          productArg classArg callback userData =
        libusb_hotplug_register_callback true env true ctx events flags vendorArg
          productArg classArg callback userData) := by
  have h := register_enum_output env ctx events flags vendorArg productArg
    classArg callback userData hval henum harr hnd
  refine ⟨?_, ?_, ?_, ?_, ?_⟩
  · rw [h]
  · rw [h]
  · rw [h]
  · rw [h]
  · intro env' hnd'
    rw [h, register_enum_output env' ctx events flags vendorArg productArg
      classArg callback userData hval henum harr hnd']

/-- Witness for C2 at a concrete input: registering with Enumerate set and
Arrived in the mask against the three live matching devices of
`sampleCtx3`, with a callback whose return value is non-zero on device 10,
synchronously invokes the callback exactly three times, in live-list
order, between one lock and one unlock, and the record (handle 2) is
registered afterwards. -/
theorem register_enumerate_replay_synchronous_witness :
    (libusb_hotplug_register_callback true envStop10 true sampleCtx3 1 1 (-1)
        (-1) (-1) 9 5).2.2 =
      [Ev.lock, Ev.invoke 2 10 .arrived 5, Ev.invoke 2 11 .arrived 5,
       Ev.invoke 2 12 .arrived 5, Ev.unlock] ∧
    (libusb_hotplug_register_callback true envStop10 true sampleCtx3 1 1 (-1)
        (-1) (-1) 9 5).2.1.hotplugCbs.length = 1 := by
  have h := register_enumerate_replay_synchronous envStop10 sampleCtx3 1 1 (-1)
    (-1) (-1) 9 5 (by decide) (by decide) (by decide) (fun _ _ => rfl)
  constructor
  · rw [h.2.2.1]
    rfl
  · rw [h.2.1]
    rfl

/-- C1 counterexample: the claim as stated is false on the code.  In
`sampleCtx` the single record holds two queued notifications and the
callback makes no nested deregistration calls (so the record is never
marked for deferred destruction), yet the dispatcher makes only one
invocation (not one per queued notification until exhaustion) and destroys
the record even though the invocation that the claim designates as last
(the final queued notification, device 11) returns zero: the loop stops at
the first non-zero return (hotplug.c line 324). -/
theorem dispatch_nonzero_return_stops_counterexample :
    sampleCb.notifications =
      [⟨.arrived, 10⟩, ⟨.arrived, 11⟩] ∧
    (envStop10 sampleCb.cbId 10 .arrived sampleCb.userData).2 = [] ∧
    (envStop10 sampleCb.cbId 11 .arrived sampleCb.userData).2 = [] ∧
    (envStop10 sampleCb.cbId 11 .arrived sampleCb.userData).1 = 0 ∧
    ((usbi_hotplug_process_notifications true envStop10 sampleCtx).2.filter
        isInvokeEv).length = 1 ∧
    (usbi_hotplug_process_notifications true envStop10 sampleCtx).1.hotplugCbs
      = [] :=
  ⟨rfl, rfl, rfl, rfl, rfl, rfl⟩

/-- C1 (amended): for a record with a non-empty queue processed by the
dispatcher's per-record step, whose callback performs at most nested
self-deregistrations, the user callback is invoked once per queued
notification in FIFO order (a prefix of the queue) until the queue is
exhausted, the record is marked for deferred destruction, or an
invocation returns non-zero (processing then stops immediately); the
return value of the last invocation actually made decides the record's
fate: non-zero frees the record at once, zero leaves it registered with
an emptied queue (carrying the deferred-destruction mark if one was set);
in both cases the device reference of every queued notification of the
record is released exactly once. -/
theorem process_notifications_last_return_decides
    (env : Env) (ctx : Ctx) (idx : Nat) (cb : HotplugCb)
    (hidx : ctx.hotplugCbs[idx]? = some cb)
    (hq : cb.notifications ≠ [])
    (hhh : ctx.handlingHotplug = true)
    (huniq : ctx.hotplugCbs.Pairwise (fun a b => a.handle ≠ b.handle))
    (hself : ∀ d e u, (env cb.cbId d e u).2 = [] ∨
      (env cb.cbId d e u).2 = [cb.handle]) :
    spec_delivered (env cb.cbId) cb.userData cb.needsFree cb.notifications
      <+: cb.notifications ∧
    (process_one_hotplug_cb true env ctx idx).2.filter isInvokeEv =
      (spec_delivered (env cb.cbId) cb.userData cb.needsFree
        cb.notifications).map
        (fun n => Ev.invoke cb.handle n.deviceId n.event cb.userData) ∧
    (spec_last_ret (env cb.cbId) cb.userData
        (spec_delivered (env cb.cbId) cb.userData cb.needsFree
          cb.notifications) ≠ 0 →
      (process_one_hotplug_cb true env ctx idx).1.hotplugCbs =
        ctx.hotplugCbs.eraseIdx idx) ∧
    (spec_last_ret (env cb.cbId) cb.userData
        (spec_delivered (env cb.cbId) cb.userData cb.needsFree
          cb.notifications) = 0 →
      (process_one_hotplug_cb true env ctx idx).1.hotplugCbs =
        ctx.hotplugCbs.set idx
          { cb with
              needsFree :=
                spec_marked_after (env cb.cbId) cb.userData cb.needsFree
                  (spec_delivered (env cb.cbId) cb.userData cb.needsFree
                    cb.notifications)
              notifications := [] }) ∧
    (∀ d, (process_one_hotplug_cb true env ctx idx).1.refCnt d =
      ctx.refCnt d - countIn cb.notifications d) := by
  have hlt : idx < ctx.hotplugCbs.length := getElem?_lt hidx
  have hcb : ctx.hotplugCbs[idx] = cb := by
    rw [List.getElem?_eq_getElem hlt] at hidx
    exact Option.some_inj.mp hidx
  have hbefore : ∀ j, j < idx → ∀ b, ctx.hotplugCbs[j]? = some b →
      (b.handle == cb.handle) = false := by
    intro j hj b hb
    have hjlt : j < ctx.hotplugCbs.length := getElem?_lt hb
    have hbj : ctx.hotplugCbs[j] = b := by
      rw [List.getElem?_eq_getElem hjlt] at hb
      exact Option.some_inj.mp hb
    have hne := List.pairwise_iff_getElem.mp huniq j idx hjlt hlt hj
    rw [hbj, hcb] at hne
    simpa using hne
  obtain ⟨h1, h2, h3, h4, h5, h6, h7, h8⟩ :=
    run_queue_spec env idx cb.notifications ctx cb hidx hhh hbefore hself
  have hsome : (run_queue true env ctx idx cb.notifications).1.hotplugCbs[idx]?
      = some
        { cb with
            needsFree :=
              spec_marked_after (env cb.cbId) cb.userData cb.needsFree
                (spec_delivered (env cb.cbId) cb.userData cb.needsFree
                  cb.notifications) } := by
    rw [h3]
    exact List.getElem?_set_self hlt
  refine ⟨spec_delivered_front _ _ _ _, ?_, ?_, ?_, ?_⟩
  · simp only [process_one_hotplug_cb, hidx]
    rw [if_neg hq]
    by_cases hret : (run_queue true env ctx idx cb.notifications).2.1 ≠ 0
    · rw [if_pos hret]
      exact h2
    · rw [if_neg hret, hsome]
      exact h2
  · intro hρ
    rw [← h1] at hρ
    simp only [process_one_hotplug_cb, hidx]
    rw [if_neg hq, if_pos hρ]
    unfold free_hotplug_cb
    rw [hsome]
    simp only
    rw [h3, eraseIdx_set]
  · intro hρ
    rw [← h1] at hρ
    have hρ' : ¬(run_queue true env ctx idx cb.notifications).2.1 ≠ 0 := by
      simp [hρ]
    simp only [process_one_hotplug_cb, hidx]
    rw [if_neg hq, if_neg hρ', hsome]
    simp only
    rw [h3, List.set_set]
  · intro d
    simp only [process_one_hotplug_cb, hidx]
    rw [if_neg hq]
    by_cases hret : (run_queue true env ctx idx cb.notifications).2.1 ≠ 0
    · rw [if_pos hret]
      unfold free_hotplug_cb
      rw [hsome]
      simp only
      rw [releaseNotifications_apply, h4]
    · rw [if_neg hret, hsome]
      simp only
      rw [releaseNotifications_apply, h4]

/-- Witness for C1's amended statement at a concrete input: in
`sampleCtxHandling` the record (handle 1) has two queued notifications and
its callback, returning zero, deregisters itself during the first
invocation; the dispatcher's per-record step makes exactly one invocation,
keeps the record (last return zero) with an emptied queue and the
deferred-destruction mark set, and releases both queued device
references. -/
theorem process_notifications_last_return_decides_witness :
    (process_one_hotplug_cb true envSelfDereg sampleCtxHandling 0).2.filter
        isInvokeEv = [Ev.invoke 1 10 .arrived 42] ∧
    (process_one_hotplug_cb true envSelfDereg sampleCtxHandling 0).1.hotplugCbs
      = [{ sampleCb with needsFree := true, notifications := [] }] ∧
    (process_one_hotplug_cb true envSelfDereg sampleCtxHandling 0).1.refCnt 10
      = 2 ∧
    (process_one_hotplug_cb true envSelfDereg sampleCtxHandling 0).1.refCnt 11
      = 2 := by
  have h := process_notifications_last_return_decides envSelfDereg
    sampleCtxHandling 0 sampleCb rfl (by decide) rfl
    (by simp [sampleCtxHandling, sampleCtx])
    (fun d e u => by
      by_cases hd : d = 10
      · subst hd
        right
        rfl
      · left
        simp [envSelfDereg, hd])
  refine ⟨?_, ?_, ?_, ?_⟩
  · rw [h.2.1]
    rfl
  · rw [h.2.2.2.1 (by rfl)]
    rfl
  · rw [h.2.2.2.2 10]
    rfl
  · rw [h.2.2.2.2 11]
    rfl

/-- C3: every notification's device reference is acquired at creation and
released exactly once.  (a) The fan-out `hotplug_notification` increases a
device's reference count by exactly the number of notifications it
enqueues for it.  (b) A dispatch pass (`usbi_hotplug_process_notifications`)
decreases a device's reference count by exactly the number of its queued
notifications that it removes, never enqueues, and preserves the pinning
invariant.  (c) `libusb_hotplug_deregister_callback` (destroying a record
with notifications still queued, or deferring) does the same.  (d) Context
teardown (`usbi_hotplug_exit`) releases exactly one reference per queued
notification plus one per live-list entry, emptying both.  (e) Under the
pinning invariant a device's reference count cannot be zero while a
notification referencing it is queued. -/
theorem notification_reference_released_exactly_once :
    (∀ (allocOk : Int → Bool) (ctx : Ctx) (d : Nat) (ev : Event) (x : Nat),
      (hotplug_notification allocOk ctx d ev).1.refCnt x +
          queuedCount ctx x =
        ctx.refCnt x + queuedCount (hotplug_notification allocOk ctx d ev).1 x ∧
      queuedCount ctx x ≤
        queuedCount (hotplug_notification allocOk ctx d ev).1 x) ∧
    (∀ (hp : Bool) (env : Env) (ctx : Ctx), RefInv ctx →
      (∀ x, (usbi_hotplug_process_notifications hp env ctx).1.refCnt x +
          queuedCount ctx x =
        ctx.refCnt x +
          queuedCount (usbi_hotplug_process_notifications hp env ctx).1 x) ∧
      (∀ x, queuedCount (usbi_hotplug_process_notifications hp env ctx).1 x ≤
        queuedCount ctx x) ∧
      RefInv (usbi_hotplug_process_notifications hp env ctx).1) ∧
    (∀ (hp : Bool) (ctx : Ctx) (h : Int), RefInv ctx →
      (∀ x, (libusb_hotplug_deregister_callback hp ctx h).1.refCnt x +
          queuedCount ctx x =
        ctx.refCnt x +
          queuedCount (libusb_hotplug_deregister_callback hp ctx h).1 x) ∧
      (∀ x, queuedCount (libusb_hotplug_deregister_callback hp ctx h).1 x ≤
        queuedCount ctx x) ∧
      RefInv (libusb_hotplug_deregister_callback hp ctx h).1) ∧
    (∀ (ctx : Ctx) (x : Nat), RefInv ctx →
      (usbi_hotplug_exit true ctx).refCnt x + queuedCount ctx x +
          listCount ctx x = ctx.refCnt x ∧
      queuedCount (usbi_hotplug_exit true ctx) x = 0 ∧
      listCount (usbi_hotplug_exit true ctx) x = 0) ∧
    (∀ (ctx : Ctx) (x : Nat), RefInv ctx →
      1 ≤ queuedCount ctx x → 1 ≤ ctx.refCnt x) := by
  refine ⟨?_, ?_, ?_, ?_, ?_⟩
  · intro allocOk ctx d ev x
    have h1 : (hotplug_notification allocOk ctx d ev).1.refCnt x =
        if x = d then
          ctx.refCnt x + ctx.hotplugCbs.countP
            (fun cb => hotplug_cb_match cb (ctx.devDesc d) ev &&
              allocOk cb.handle)
        else ctx.refCnt x := by
      unfold hotplug_notification
      exact notify_cbs_refs allocOk (ctx.devDesc d) d ev ctx.refCnt
        ctx.hotplugCbs x
    have h2 : queuedCount (hotplug_notification allocOk ctx d ev).1 x =
        queuedCount ctx x +
          (if x = d then
            ctx.hotplugCbs.countP
              (fun cb => hotplug_cb_match cb (ctx.devDesc d) ev &&
                allocOk cb.handle)
          else 0) := by
      simp only [queuedCount]
      rw [show (hotplug_notification allocOk ctx d ev).1.hotplugCbs =
        ctx.hotplugCbs.map (fun cb =>
          if hotplug_cb_match cb (ctx.devDesc d) ev && allocOk cb.handle then
            { cb with notifications := cb.notifications ++ [⟨ev, d⟩] }
          else cb) from by
          unfold hotplug_notification
          exact notify_cbs_fst allocOk (ctx.devDesc d) d ev ctx.refCnt
            ctx.hotplugCbs]
      exact queued_after_notify (ctx.devDesc d) d ev allocOk ctx.hotplugCbs x
    rw [h1, h2]
    by_cases hx : x = d
    · simp only [hx, if_true]
      try omega
    · simp only [hx, if_false]
      try omega
  · intro hp env ctx hinv
    have hinv1 : RefInv
        { ctx with
            handlingHotplug := true
            lockCount := ctx.lockCount + 1 } := hinv
    obtain ⟨p1, p2, p3, p4, p5⟩ := process_pass_accounting hp env
      ctx.hotplugCbs.length
      { ctx with
          handlingHotplug := true
          lockCount := ctx.lockCount + 1 } rfl hinv1
    set R := (process_pass hp env
      { ctx with
          handlingHotplug := true
          lockCount := ctx.lockCount + 1 }
      ctx.hotplugCbs.length).1 with hR
    have hb1 : (usbi_hotplug_process_notifications hp env ctx).1.refCnt =
        (if R.cbFreedFlag then sweep_free R R.hotplugCbs.length else R).refCnt
        := by
      simp only [usbi_hotplug_process_notifications]
    have hb2 : ∀ x,
        queuedCount (usbi_hotplug_process_notifications hp env ctx).1 x =
          queuedCount
            (if R.cbFreedFlag then sweep_free R R.hotplugCbs.length else R)
            x := by
      intro x
      simp only [usbi_hotplug_process_notifications, queuedCount]
    have hb3 : ∀ x,
        listCount (usbi_hotplug_process_notifications hp env ctx).1 x =
          listCount
            (if R.cbFreedFlag then sweep_free R R.hotplugCbs.length else R)
            x := by
      intro x
      simp only [usbi_hotplug_process_notifications, listCount]
    have c1 : ∀ x,
        queuedCount
          { ctx with
              handlingHotplug := true
              lockCount := ctx.lockCount + 1 } x = queuedCount ctx x :=
      fun x => rfl
    have c2 : ∀ x,
        ({ ctx with
            handlingHotplug := true
            lockCount := ctx.lockCount + 1 } : Ctx).refCnt x = ctx.refCnt x :=
      fun x => rfl
    by_cases hflag : R.cbFreedFlag = true
    · obtain ⟨s1, s2, s3, s4⟩ :=
        sweep_free_accounting R.hotplugCbs.length R p3
      rw [if_pos hflag] at hb1 hb2 hb3
      refine ⟨?_, ?_, ?_⟩
      · intro x
        have a1 := p1 x
        have a2 := s1 x
        have a3 := p2 x
        have a4 := s2 x
        rw [c1 x, c2 x] at a1
        rw [c1 x] at a3
        rw [congrFun hb1 x, hb2 x]
        omega
      · intro x
        have a3 := p2 x
        have a4 := s2 x
        rw [c1 x] at a3
        rw [hb2 x]
        omega
      · intro x
        have a5 := s3 x
        have a6 : listCount (sweep_free R R.hotplugCbs.length) x =
            listCount R x := by
          simp only [listCount]
          rw [s4]
        rw [show queuedCount (usbi_hotplug_process_notifications hp env ctx).1 x
            + listCount (usbi_hotplug_process_notifications hp env ctx).1 x
            ≤ (usbi_hotplug_process_notifications hp env ctx).1.refCnt x ↔
          queuedCount (sweep_free R R.hotplugCbs.length) x +
            listCount (sweep_free R R.hotplugCbs.length) x ≤
            (sweep_free R R.hotplugCbs.length).refCnt x from by
          rw [congrFun hb1 x, hb2 x, hb3 x]]
        exact a5
    · rw [if_neg hflag] at hb1 hb2 hb3
      refine ⟨?_, ?_, ?_⟩
      · intro x
        have a1 := p1 x
        rw [c1 x, c2 x] at a1
        rw [congrFun hb1 x, hb2 x]
        omega
      · intro x
        have a3 := p2 x
        rw [c1 x] at a3
        rw [hb2 x]
        omega
      · intro x
        have a5 := p3 x
        have a6 : listCount R x = listCount ctx x := by
          simp only [listCount]
          rw [p5]
        rw [show queuedCount (usbi_hotplug_process_notifications hp env ctx).1 x
            + listCount (usbi_hotplug_process_notifications hp env ctx).1 x
            ≤ (usbi_hotplug_process_notifications hp env ctx).1.refCnt x ↔
          queuedCount R x + listCount R x ≤ R.refCnt x from by
          rw [congrFun hb1 x, hb2 x, hb3 x]]
        exact a5
  · intro hp ctx h hinv
    exact deregister_accounting hp ctx h hinv
  · intro ctx x hinv
    have hexit : usbi_hotplug_exit true ctx =
        { ctx with
            refCnt :=
              unref_all_devs (free_all_cbs ctx.refCnt ctx.hotplugCbs)
                ctx.usbDevs
            hotplugCbs := []
            usbDevs := [] } := rfl
    rw [hexit]
    have h1 := unref_all_devs_apply ctx.usbDevs
      (free_all_cbs ctx.refCnt ctx.hotplugCbs) x
    have h2 := free_all_cbs_apply ctx.hotplugCbs ctx.refCnt x
    have h3 := hinv x
    refine ⟨?_, rfl, rfl⟩
    simp only [queuedCount, listCount] at h3 ⊢
    rw [h1, h2]
    omega
  · intro ctx x hinv h1
    have h2 := hinv x
    omega

/-- Witness for C3 at a concrete input: `sampleCtx` satisfies the pinning
invariant; dispatching it with an always-rearming callback releases
exactly the consumed notifications' references of device 10, and since a
notification for device 10 is queued its reference count is positive. -/
theorem notification_reference_released_exactly_once_witness :
    RefInv sampleCtx ∧
    ((usbi_hotplug_process_notifications true envRearm sampleCtx).1.refCnt 10 +
        queuedCount sampleCtx 10 =
      sampleCtx.refCnt 10 +
        queuedCount
          (usbi_hotplug_process_notifications true envRearm sampleCtx).1 10) ∧
    1 ≤ queuedCount sampleCtx 10 ∧
    1 ≤ sampleCtx.refCnt 10 := by
  have hInv : RefInv sampleCtx := by
    intro d
    by_cases h10 : d = 10
    · subst h10
      decide
    · by_cases h11 : d = 11
      · subst h11
        decide
      · have g10 : ¬(10 : Nat) = d := fun hc => h10 hc.symm
        have g11 : ¬(11 : Nat) = d := fun hc => h11 hc.symm
        have e10 : ((10 : Nat) == d) = false := by
          simp [g10]
        have e11 : ((11 : Nat) == d) = false := by
          simp [g11]
        simp [queuedCount, listCount, sampleCtx, sampleCb, countIn,
          List.count_cons, e10, e11]
  refine ⟨hInv, ?_, by decide, by decide⟩
  exact ((notification_reference_released_exactly_once.2.1) true envRearm
    sampleCtx hInv).1 10

end Hotplug
